import Mathlib

/-!
# Cave generation by cellular-automaton smoothing

A shallow embedding of `src/cell/cellular.h` (the classes `Cellular2d`,
`Cellular1d`, `Cellular`) and of the original generator kept at the end of
`src/cell/cell.cpp` (`initialiseMap`, `simStep`, `countAliveNeighbours`, `o`).

Conventions of the embedding.

* A `std::vector` / `bool[]` is a `List`.  Every subscript `v[i]` is checked:
  a read or a write at a position outside the container yields `none`
  (undefined behaviour in C++), so that a result `some _` says that every
  subscript evaluated on the way was in range.
* `int` values are unbounded integers; every integer computed by the code is
  bounded by the size of an allocated container plus a constant, so no `int`
  arithmetic wraps.  The counter `int8_t count` never exceeds 8.
* Widths and heights are natural numbers: the embedding covers the calls
  with `width >= 0` and `height >= 0`.
* The C library generator behind `rand()` / `srand()` is process-wide state.
  It is passed explicitly as a `RandState`: the sequence of values still to
  be returned and the number of draws made so far.  The sequence that
  `srand(seed)` installs is a parameter `prng seed` of the functions that
  call `srand`.
-/

namespace CaveGen

/-! ## Loops and checked subscripts -/

/-- The loop `for (int k = 0; k < n; k++) body(k)` over a state that may fail:
iterations `0 .. n-1` run in order, and a failing iteration fails the loop. -/
def forUpTo {σ : Type} (body : Nat → σ → Option σ) : Nat → σ → Option σ
  | 0, s => some s
  | n + 1, s => (forUpTo body n s).bind (body n)

/-- The loop `for (int k = 0; k <= n; k++) body(k)`: iteration `0` always
runs, then iterations `1 .. n`. -/
def forUpToIncl {σ : Type} (body : Nat → σ → Option σ) : Nat → σ → Option σ
  | 0, s => body 0 s
  | n + 1, s => (forUpToIncl body n s).bind (body (n + 1))

/-- The checked read `v[i]` with an `int` subscript. -/
def readAt {α : Type} (v : List α) (i : Int) : Option α :=
  if i < 0 then none else v[i.toNat]?

/-- The checked write `v[i] = a`. -/
def writeAt {α : Type} (v : List α) (i : Nat) (a : α) : Option (List α) :=
  if i < v.length then some (v.set i a) else none

/-- The checked read `m[r][c]` of a vector of vectors. -/
def readCell {α : Type} (m : List (List α)) (r c : Int) : Option α :=
  (readAt m r).bind (fun row => readAt row c)

/-- The checked write `m[r][c] = a` of a vector of vectors. -/
def writeCell {α : Type} (m : List (List α)) (r c : Nat) (a : α) :
    Option (List (List α)) :=
  (m[r]?).bind (fun row => (writeAt row c a).bind (fun row2 => writeAt m r row2))

/-- The values of the loop variables `i` and `j` of the neighbour loops,
`for (int i = -1; i < 2; i++)`, in the order they are taken. -/
def offsetRange : List Int := [-1, 0, 1]

/-! ## The C library random generator -/

/-- State of the process-wide generator: the values `rand()` will return,
and how many it has returned. -/
structure RandState where
  stream : Nat → Nat
  pos : Nat

/-- The call `rand()`: returns the next value and advances the generator. -/
def rand (s : RandState) : Nat × RandState :=
  (s.stream s.pos, { s with pos := s.pos + 1 })

/-- The call `srand(seed)`: whatever the state was, the generator restarts on
the sequence `prng seed`. -/
def srand (prng : Nat → Nat → Nat) (seed : Nat) (_s : RandState) : RandState :=
  { stream := prng seed, pos := 0 }

/-- The constant `chanceToStartAlive` of every `Generate` and of
`initialiseMap`. -/
def chanceToStartAlive : Nat := 41

/-- The expression `rand() % 100 + 1 < chanceToStartAlive` on the value `r`
returned by `rand()`. -/
def startsAlive (r : Nat) : Bool := decide (r % 100 + 1 < chanceToStartAlive)

/-! ## `class Cellular2d` -/

/-- The data members of `Cellular2d`. -/
structure Cellular2d where
  map : List (List Bool)
  width : Nat
  height : Nat

namespace Cellular2d

/-- The method `IsInBounds(x, y)`: true when `(x, y)` is OUTSIDE the map.  The
disjunction short-circuits, so `map[0]` is evaluated only when `x >= 0` and
`y >= 0`. -/
def IsInBounds (map : List (List Bool)) (x y : Int) : Option Bool :=
  if x < 0 then some true
  else if y < 0 then some true
  else (readAt map 0).bind (fun row0 =>
    some (decide (x ≥ (row0.length : Int)) || decide (y ≥ (map.length : Int))))

/-- One evaluation of the condition
`(IsInBounds(nx, ny) || map[ny][nx]) && !(i == 0 && j == 0)`:
`map[ny][nx]` is read only when `IsInBounds` is false, and the test on
`(i, j)` only when the left operand is true. -/
def neighbourTest (map : List (List Bool)) (x y i j : Int) : Option Bool :=
  (IsInBounds map (x + i) (y + j)).bind (fun out =>
    (if out then some true else readCell map (y + j) (x + i)).bind (fun left =>
      some (left && !(i == 0 && j == 0))))

/-- The method `countAliveNeighbours(x, y)`. -/
def countAliveNeighbours (map : List (List Bool)) (x y : Int) : Option Nat :=
  offsetRange.foldlM (fun count i =>
    offsetRange.foldlM (fun count2 j =>
      (neighbourTest map x y i j).bind (fun t =>
        some (if t then count2 + 1 else count2))) count) 0

/-- The body of the loops of `Smooth` at `(w, h)`. -/
def smoothCell (h w : Nat) (map : List (List Bool)) : Option (List (List Bool)) :=
  (countAliveNeighbours map w h).bind (fun newVal =>
    (readCell map h w).bind (fun cur =>
      if cur then writeCell map h w (!(decide (newVal < 3)))
      else writeCell map h w (decide (newVal > 4))))

/-- The method `Smooth()` on the member `map`: rows `h < map.size()` in order,
in each row the columns `w < map[0].size()` in order, every cell rewritten in
`map` itself. -/
def Smooth (map : List (List Bool)) : Option (List (List Bool)) :=
  forUpTo (fun h m =>
    (readAt m 0).bind (fun row0 => forUpTo (smoothCell h) row0.length m))
    map.length map

/-- The body of the loops of `Generate` at `(w, h)`. -/
def generateCell (h w : Nat) (st : List (List Bool) × RandState) :
    Option (List (List Bool) × RandState) :=
  (writeCell st.1 h w (startsAlive (rand st.2).1)).bind (fun m =>
    some (m, (rand st.2).2))

/-- The method `Generate()`. -/
def Generate (c : Cellular2d) (rs : RandState) :
    Option (List (List Bool) × RandState) :=
  forUpTo (fun h st => forUpTo (generateCell h) c.width st) c.height (c.map, rs)

/-- The constructor `Cellular2d(width, height)`. -/
def construct (width height : Nat) (rs : RandState) :
    Option (Cellular2d × RandState) :=
  (Generate
      { map := List.replicate height (List.replicate width false),
        width := width, height := height } rs).bind (fun st =>
    (forUpTo (fun _ m => Smooth m) 5 st.1).bind (fun m =>
      some ({ map := m, width := width, height := height }, st.2)))

/-- The method `GetMap()`. -/
def GetMap (c : Cellular2d) : List (List Bool) := c.map

end Cellular2d

/-! ## `class Cellular1d` -/

/-- The data members of `Cellular1d`. -/
structure Cellular1d where
  map : List Bool
  width : Nat
  height : Nat
  seed : Nat

namespace Cellular1d

/-- The method `IsInBounds(index)`: true when `index` is OUTSIDE the map. -/
def IsInBounds (map : List Bool) (index : Int) : Bool :=
  decide (index < 0) || decide (index ≥ (map.length : Int))

/-- One evaluation of the condition
`(IsInBounds(neighbour) || map[neighbour]) && !(i == 0 && j == 0)` with
`neighbour = (x + i) * width + (y + j)`. -/
def neighbourTest (width : Nat) (map : List Bool) (x y i j : Int) : Option Bool :=
  (if IsInBounds map ((x + i) * (width : Int) + (y + j)) then some true
   else readAt map ((x + i) * (width : Int) + (y + j))).bind (fun left =>
    some (left && !(i == 0 && j == 0)))

/-- The method `countAliveNeighbours(index)`, with `x = index / width` and
`y = index % width`; the division fails for `width = 0`. -/
def countAliveNeighbours (width : Nat) (map : List Bool) (index : Nat) : Option Nat :=
  if width = 0 then none
  else
    offsetRange.foldlM (fun count i =>
      offsetRange.foldlM (fun count2 j =>
        (neighbourTest width map ((index / width : Nat) : Int)
            ((index % width : Nat) : Int) i j).bind (fun t =>
          some (if t then count2 + 1 else count2))) count) 0

/-- The body of the loop of `Smooth` at `index`. -/
def smoothCell (width : Nat) (index : Nat) (map : List Bool) : Option (List Bool) :=
  (countAliveNeighbours width map index).bind (fun newVal =>
    (readAt map index).bind (fun cur =>
      if cur then writeAt map index (!(decide (newVal < 3)))
      else writeAt map index (decide (newVal > 4))))

/-- The method `Smooth()`: the cells `index < map.size()` in order, every cell
rewritten in `map` itself. -/
def Smooth (width : Nat) (map : List Bool) : Option (List Bool) :=
  forUpTo (smoothCell width) map.length map

/-- The body of the loop of `Generate` at `index`. -/
def generateCell (index : Nat) (st : List Bool × RandState) :
    Option (List Bool × RandState) :=
  (writeAt st.1 index (startsAlive (rand st.2).1)).bind (fun m =>
    some (m, (rand st.2).2))

/-- The method `Generate()`; the call `srand(seed)` is commented out in the
source, so the generator is used in the state it is found in. -/
def Generate (c : Cellular1d) (rs : RandState) : Option (List Bool × RandState) :=
  forUpTo generateCell c.map.length (c.map, rs)

/-- The constructor `Cellular1d(width, height, seed)`. -/
def construct (width height seed : Nat) (rs : RandState) :
    Option (Cellular1d × RandState) :=
  (Generate
      { map := List.replicate (height * width) false,
        width := width, height := height, seed := seed } rs).bind (fun st =>
    (forUpTo (fun _ m => Smooth width m) 5 st.1).bind (fun m =>
      some ({ map := m, width := width, height := height, seed := seed }, st.2)))

/-- The method `GetMap()`. -/
def GetMap (c : Cellular1d) : List Bool := c.map

end Cellular1d

/-! ## `class Cellular` -/

/-- The data members of `Cellular`; `map` is the array behind the
`unique_ptr<bool[]>`. -/
structure Cellular where
  map : List Bool
  width : Nat
  height : Nat
  size : Nat
  seed : Nat

namespace Cellular

/-- The method `IsInBounds(index)`: true when `index` is OUTSIDE `[0, size)`. -/
def IsInBounds (size : Nat) (index : Int) : Bool :=
  decide (index < 0) || decide (index ≥ (size : Int))

/-- One evaluation of the condition
`(IsInBounds(neighbour) || map[neighbour]) && !(i == 0 && j == 0)` with
`neighbour = (x + i) * width + (y + j)`. -/
def neighbourTest (width size : Nat) (map : List Bool) (x y i j : Int) : Option Bool :=
  (if IsInBounds size ((x + i) * (width : Int) + (y + j)) then some true
   else readAt map ((x + i) * (width : Int) + (y + j))).bind (fun left =>
    some (left && !(i == 0 && j == 0)))

/-- The method `countAliveNeighbours(index)`, with `x = index / width` and
`y = index % width`; the division fails for `width = 0`. -/
def countAliveNeighbours (width size : Nat) (map : List Bool) (index : Nat) :
    Option Nat :=
  if width = 0 then none
  else
    offsetRange.foldlM (fun count i =>
      offsetRange.foldlM (fun count2 j =>
        (neighbourTest width size map ((index / width : Nat) : Int)
            ((index % width : Nat) : Int) i j).bind (fun t =>
          some (if t then count2 + 1 else count2))) count) 0

/-- The body of the loop of `Smooth` at `index`. -/
def smoothCell (width size : Nat) (index : Nat) (map : List Bool) : Option (List Bool) :=
  (countAliveNeighbours width size map index).bind (fun newVal =>
    (readAt map index).bind (fun cur =>
      if cur then writeAt map index (!(decide (newVal < 3)))
      else writeAt map index (decide (newVal > 4))))

/-- The method `Smooth()`: the cells `index < size` in order, every cell
rewritten in `map` itself. -/
def Smooth (width size : Nat) (map : List Bool) : Option (List Bool) :=
  forUpTo (smoothCell width size) size map

/-- The body of the loop of `Generate` at `index`. -/
def generateCell (index : Nat) (st : List Bool × RandState) :
    Option (List Bool × RandState) :=
  (writeAt st.1 index (startsAlive (rand st.2).1)).bind (fun m =>
    some (m, (rand st.2).2))

/-- The method `Generate()`: `srand(seed)`, then one draw per cell. -/
def Generate (prng : Nat → Nat → Nat) (c : Cellular) (rs : RandState) :
    Option (List Bool × RandState) :=
  forUpTo generateCell c.size (c.map, srand prng c.seed rs)

/-- The constructor `Cellular(width, height, seed)`. -/
def construct (prng : Nat → Nat → Nat) (width height seed : Nat) (rs : RandState) :
    Option (Cellular × RandState) :=
  (Generate prng
      { map := List.replicate (height * width) false,
        width := width, height := height, size := height * width,
        seed := seed } rs).bind (fun st =>
    (forUpTo (fun _ m => Smooth width (height * width) m) 5 st.1).bind (fun m =>
      some ({ map := m, width := width, height := height,
              size := height * width, seed := seed }, st.2)))

/-- The method `GetMap()`. -/
def GetMap (c : Cellular) : List Bool := c.map

end Cellular

/-! ## The original generator of `cell.cpp` -/

/-- The function `countAliveNeighbours(map, x, y)` of `cell.cpp`: one pass of
its loop body at the offsets `(i, j)`. -/
def countStep (map : List (List Int)) (x y i j : Int) (count : Nat) : Option Nat :=
  if i = 0 ∧ j = 0 then some count
  else if x + i < 0 then some (count + 1)
  else if y + j < 0 then some (count + 1)
  else (readAt map 0).bind (fun row0 =>
    if x + i ≥ (row0.length : Int) ∨ y + j ≥ (map.length : Int) then some (count + 1)
    else (readCell map (y + j) (x + i)).bind (fun v =>
      if v = 1 then some (count + 1) else some count))

/-- The function `countAliveNeighbours(map, x, y)` of `cell.cpp`. -/
def countAliveNeighbours (map : List (List Int)) (x y : Int) : Option Nat :=
  offsetRange.foldlM (fun count i =>
    offsetRange.foldlM (fun count2 j => countStep map x y i j count2) count) 0

/-- The body of the loops of `simStep` at `(w, h)`; the state is `newMap`. -/
def simStepCell (oldMap : List (List Int)) (h w : Nat) (newMap : List (List Int)) :
    Option (List (List Int)) :=
  (countAliveNeighbours oldMap w h).bind (fun newVal =>
    (readCell oldMap h w).bind (fun cur =>
      if cur ≠ 0 then
        (if newVal < 3 then writeCell newMap h w 0 else writeCell newMap h w 1)
      else
        (if newVal > 4 then writeCell newMap h w 1 else writeCell newMap h w 0)))

/-- The function `simStep(oldMap, width, height)`, with `birthLimit = 4` and
`deathLimit = 3`. -/
def simStep (oldMap : List (List Int)) (width height : Nat) : Option (List (List Int)) :=
  forUpTo (fun h newMap =>
    (readAt oldMap 0).bind (fun row0 =>
      forUpTo (simStepCell oldMap h) row0.length newMap))
    oldMap.length (List.replicate height (List.replicate width 0))

/-- The body of the loops of `initialiseMap` at `(w, h)`. -/
def initialiseCell (h w : Nat) (st : List (List Int) × RandState) :
    Option (List (List Int) × RandState) :=
  (if (rand st.2).1 % 100 + 1 < chanceToStartAlive then writeCell st.1 h w 1
   else writeCell st.1 h w 0).bind (fun m => some (m, (rand st.2).2))

/-- The function `initialiseMap(width, height)`. -/
def initialiseMap (width height : Nat) (rs : RandState) :
    Option (List (List Int) × RandState) :=
  forUpTo (fun h st => forUpTo (initialiseCell h) width st) height
    (List.replicate height (List.replicate width 0), rs)

/-- The function `o()` up to its printing loop: the value of its local `map`
when the simulation loop `for (k = 0; k <= simSteps; k++)` is left, for map
sizes `mapXSize`, `mapYSize` and `simSteps` (100, 45 and 4 in the source). -/
def oWith (mapXSize mapYSize simSteps : Nat) (rs : RandState) :
    Option (List (List Int) × RandState) :=
  (initialiseMap mapXSize mapYSize rs).bind (fun st =>
    (forUpToIncl (fun _ map => simStep map mapXSize mapYSize) simSteps st.1).bind
      (fun map => some (map, st.2)))

/-- The function `o()` up to its printing loop. -/
def o (rs : RandState) : Option (List (List Int) × RandState) :=
  oWith 100 45 4 rs

/-! ## Vocabulary of the specification -/

/-- The grid `g` has exactly `H` rows of exactly `W` columns each. -/
def HasDims {α : Type} (g : List (List α)) (W H : Nat) : Prop :=
  g.length = H ∧ ∀ row ∈ g, row.length = W

/-- The coordinate `(x, y)` falls outside `[0,W) × [0,H)`. -/
def outside (W H : Nat) (x y : Int) : Bool :=
  decide (x < 0 ∨ y < 0 ∨ (W : Int) ≤ x ∨ (H : Int) ≤ y)

/-- The state of the cell `(x, y)` of the grid `g`: alive (`true`) or dead;
a position that is not in the grid is not alive. -/
def aliveAt (g : List (List Bool)) (x y : Int) : Bool :=
  (readCell g y x).getD false

/-- The 8 offsets `(dx, dy)` of `{-1,0,1}²` other than `(0,0)`. -/
def offsets8 : List (Int × Int) :=
  [(-1, -1), (-1, 0), (-1, 1), (0, -1), (0, 1), (1, -1), (1, 0), (1, 1)]

/-- The number of the 8 offsets that lead from `(x, y)` outside
`[0,W) × [0,H)`. -/
def outsideCount (W H : Nat) (x y : Int) : Nat :=
  (offsets8.filter (fun d => outside W H (x + d.1) (y + d.2))).length

/-- The number of the 8 offsets that lead from `(x, y)` to a cell in bounds
that is alive in `g`. -/
def aliveInsideCount (W H : Nat) (g : List (List Bool)) (x y : Int) : Nat :=
  (offsets8.filter (fun d =>
    !outside W H (x + d.1) (y + d.2) && aliveAt g (x + d.1) (y + d.2))).length

/-- The number of alive neighbours of `(x, y)` in `g`, positions out of bounds
counting as alive. -/
def aliveNeighbours (W H : Nat) (g : List (List Bool)) (x y : Int) : Nat :=
  outsideCount W H x y + aliveInsideCount W H g x y

/-- The flat variants count the position `n` as alive: `n` is outside
`[0, size)`, or the cell at `n` is alive. -/
def flatCounts (size : Nat) (map : List Bool) (n : Int) : Bool :=
  decide (n < 0 ∨ (size : Int) ≤ n) || (readAt map n).getD false

/-- The number of the 8 offsets `(i, j)` for which the flat variants count
the position `(index / W + i) * W + (index % W + j)` as alive. -/
def flatAliveNeighbours (W size : Nat) (map : List Bool) (index : Nat) : Nat :=
  (offsets8.filter (fun d =>
    flatCounts size map
      ((((index / W : Nat) : Int) + d.1) * (W : Int) + (((index % W : Nat) : Int) + d.2)))).length

/-- The birth/death rule: an alive cell stays alive iff `n >= 3`, a dead cell
becomes alive iff `n > 4`. -/
def rule (alive : Bool) (n : Nat) : Bool :=
  if alive then decide (n ≥ 3) else decide (n > 4)

/-- The pass the specification describes: every cell of the new grid is
computed from the input grid `g` only. -/
def syncSmooth (W H : Nat) (g : List (List Bool)) : List (List Bool) :=
  (List.range H).map (fun y =>
    (List.range W).map (fun x =>
      rule (aliveAt g x y) (aliveNeighbours W H g x y)))

/-- The flattening of a grid, row after row: the cell `(x, y)` of a grid of
width `W` goes to `index = y*W + x`. -/
def flatten : List (List Bool) → List Bool
  | [] => []
  | row :: rest => row ++ flatten rest

/-- `Smooth` applied 5 times, each pass to the result of the one before. -/
def fivePasses {σ : Type} (pass : σ → Option σ) (g : σ) : Option σ :=
  (pass g).bind (fun g1 => (pass g1).bind (fun g2 => (pass g2).bind (fun g3 =>
    (pass g3).bind (fun g4 => pass g4))))

/-- The offsets of the neighbours that a row-major pass visits before the cell
itself: the row above, and the cell to the left. -/
def offsetsBefore : List (Int × Int) := [(-1, -1), (0, -1), (1, -1), (-1, 0)]

/-- The offsets of the neighbours that a row-major pass visits after the cell
itself: the cell to the right, and the row below. -/
def offsetsAfter : List (Int × Int) := [(1, 0), (-1, 1), (0, 1), (1, 1)]

/-- The neighbour count of `(x, y)` in a row-major pass in place from `g` to
`g2`: positions out of bounds count as alive, the in-bounds neighbours
visited before `(x, y)` count by their value in `g2`, those visited after it
by their value in `g`. -/
def inPlaceNeighbours (W H : Nat) (g g2 : List (List Bool)) (x y : Int) : Nat :=
  outsideCount W H x y
    + (offsetsBefore.filter (fun d =>
        !outside W H (x + d.1) (y + d.2) && aliveAt g2 (x + d.1) (y + d.2))).length
    + (offsetsAfter.filter (fun d =>
        !outside W H (x + d.1) (y + d.2) && aliveAt g (x + d.1) (y + d.2))).length

/-- The cell `(x, y)` of a row-major pass is visited before the pass reaches
column `j` of row `h`. -/
def visitedBefore (h j : Nat) (y x : Nat) : Prop := y < h ∨ (y = h ∧ x < j)

/-- Every cell alive in `g` is alive in `g2`. -/
def GridLe (g g2 : List (List Bool)) : Prop :=
  ∀ x y : Nat, aliveAt g x y = true → aliveAt g2 x y = true

/-- Every value of the grid is 0 or 1. -/
def IsBinary (g : List (List Int)) : Prop :=
  ∀ row ∈ g, ∀ v ∈ row, v = 0 ∨ v = 1

/-- The value of the cell `(x, y)` of a grid of integers; 0 at a position that
is not in the grid. -/
def valueAt (g : List (List Int)) (x y : Int) : Int :=
  (readCell g y x).getD 0

/-- The number of the 8 offsets that lead from `(x, y)` to a cell in bounds
whose value in `g` is 1. -/
def onesInsideCount (W H : Nat) (g : List (List Int)) (x y : Int) : Nat :=
  (offsets8.filter (fun d =>
    !outside W H (x + d.1) (y + d.2) && decide (valueAt g (x + d.1) (y + d.2) = 1))).length

/-- The synchronous rule on 0/1 values: the new value is 1 iff the old value
is 1 and `n >= 3`, or the old value is 0 and `n > 4`; otherwise it is 0. -/
def stepValue (old : Int) (n : Nat) : Int :=
  if (old = 1 ∧ n ≥ 3) ∨ (old = 0 ∧ n > 4) then 1 else 0

/-- The state `m` of a row-major pass in place from `g`, on reaching column
`j` of row `h`: the dimensions are kept, the cells not yet visited are as in
`g`, and every cell already visited holds the rule applied to its value in
`g` and to its neighbour count in place. -/
def InPlaceInv (W H : Nat) (g : List (List Bool)) (h j : Nat) (m : List (List Bool)) : Prop :=
  HasDims m W H ∧
  (∀ y x : Nat, ¬ visitedBefore h j y x → readCell m y x = readCell g y x) ∧
  (∀ y x : Nat, y < H → x < W → visitedBefore h j y x →
    aliveAt m x y = rule (aliveAt g x y) (inPlaceNeighbours W H g m x y))

/-- The all-dead grid of `H` rows of `W` columns. -/
def deadGrid (W H : Nat) : List (List Bool) :=
  List.replicate H (List.replicate W false)

/-- A generator state whose every draw is `v`. -/
def constRand (v : Nat) : RandState := { stream := fun _ => v, pos := 0 }

/-! ## Lemmas on loops and checked subscripts -/

theorem readAt_natCast {α : Type} (v : List α) (n : Nat) : readAt v (n : Int) = v[n]? := by
  simp [readAt]

theorem readAt_eq_some_of_lt {α : Type} (v : List α) (i : Int) (h0 : 0 ≤ i)
    (h1 : i < (v.length : Int)) : ∃ a, readAt v i = some a ∧ a ∈ v := by
  obtain ⟨n, rfl⟩ := Int.eq_ofNat_of_zero_le h0
  have hn : n < v.length := by exact_mod_cast h1
  refine ⟨v[n], ?_, List.getElem_mem _⟩
  rw [readAt_natCast]
  exact List.getElem?_eq_getElem hn

theorem readAt_zero_of_hasDims {α : Type} {g : List (List α)} {W H : Nat}
    (hg : HasDims g W H) (hH : 0 < H) :
    ∃ row0, readAt g 0 = some row0 ∧ row0.length = W := by
  obtain ⟨a, ha, hmem⟩ := readAt_eq_some_of_lt g 0 (le_refl _)
    (by rw [hg.1]; exact_mod_cast hH)
  exact ⟨a, ha, hg.2 a hmem⟩

theorem outside_eq_false_iff (W H : Nat) (x y : Int) :
    outside W H x y = false ↔ 0 ≤ x ∧ 0 ≤ y ∧ x < W ∧ y < H := by
  simp only [outside, decide_eq_false_iff_not]
  omega

theorem readCell_of_inside {g : List (List Bool)} {W H : Nat} (hg : HasDims g W H)
    {x y : Int} (hin : outside W H x y = false) :
    readCell g y x = some (aliveAt g x y) := by
  rw [outside_eq_false_iff] at hin
  obtain ⟨row, hrow, hmem⟩ := readAt_eq_some_of_lt g y hin.2.1 (by rw [hg.1]; exact hin.2.2.2)
  obtain ⟨b, hb, -⟩ := readAt_eq_some_of_lt row x hin.1 (by rw [hg.2 row hmem]; exact hin.2.2.1)
  simp [aliveAt, readCell, hrow, hb]

namespace Cellular2d

theorem IsInBounds_eq {g : List (List Bool)} {W H : Nat} (hg : HasDims g W H)
    (hH : 0 < H) (x y : Int) : IsInBounds g x y = some (outside W H x y) := by
  obtain ⟨row0, h0, hlen⟩ := readAt_zero_of_hasDims hg hH
  unfold IsInBounds outside
  by_cases hx : x < 0
  · simp [hx]
  · by_cases hy : y < 0
    · simp [hy]
    · simp [hx, hy, h0, hlen, hg.1]

theorem neighbourTest_eq {g : List (List Bool)} {W H : Nat} (hg : HasDims g W H)
    (hH : 0 < H) (x y i j : Int) :
    neighbourTest g x y i j =
      some ((outside W H (x + i) (y + j) || aliveAt g (x + i) (y + j))
        && !(i == 0 && j == 0)) := by
  unfold neighbourTest
  rw [IsInBounds_eq hg hH]
  cases hout : outside W H (x + i) (y + j)
  · simp [readCell_of_inside hg hout]
  · simp

end Cellular2d

theorem bump_eq (t : Bool) (c : Nat) : (if t = true then c + 1 else c) = c + t.toNat := by
  cases t <;> simp

theorem toNat_or_split (o a : Bool) : (o || a).toNat = o.toNat + (!o && a).toNat := by
  cases o <;> cases a <;> rfl

theorem length_filter_offsets8 (p : Int × Int → Bool) :
    (offsets8.filter p).length =
      (p (-1, -1)).toNat + (p (-1, 0)).toNat + (p (-1, 1)).toNat + (p (0, -1)).toNat
        + (p (0, 1)).toNat + (p (1, -1)).toNat + (p (1, 0)).toNat + (p (1, 1)).toNat := by
  simp only [offsets8, ← List.countP_eq_length_filter, List.countP_cons, List.countP_nil]
  cases p (-1, -1) <;> cases p (-1, 0) <;> cases p (-1, 1) <;> cases p (0, -1) <;>
    cases p (0, 1) <;> cases p (1, -1) <;> cases p (1, 0) <;> cases p (1, 1) <;> rfl

namespace Cellular2d

theorem countAliveNeighbours_eq {g : List (List Bool)} {W H : Nat} (hg : HasDims g W H)
    (hH : 0 < H) (x y : Int) :
    countAliveNeighbours g x y = some (aliveNeighbours W H g x y) := by
  simp only [countAliveNeighbours, offsetRange, List.foldlM_cons, List.foldlM_nil,
    neighbourTest_eq hg hH, Option.bind_eq_bind, Option.some_bind, Option.pure_def, Option.bind_some,
    aliveNeighbours, outsideCount, aliveInsideCount, length_filter_offsets8, bump_eq]
  have e1 : ((-1 : Int) == 0) = false := by decide
  have e2 : ((1 : Int) == 0) = false := by decide
  have e3 : ((0 : Int) == 0) = true := by decide
  simp only [e1, e2, e3, Bool.and_true, Bool.and_false, Bool.false_and, Bool.true_and,
    Bool.not_true, Bool.not_false, toNat_or_split, Bool.toNat_false]
  congr 1
  omega

end Cellular2d

theorem forUpTo_invariant {σ : Type} (P : Nat → σ → Prop) (body : Nat → σ → Option σ)
    (n : Nat) (s : σ) (h0 : P 0 s)
    (hstep : ∀ k, k < n → ∀ t, P k t → ∃ t2, body k t = some t2 ∧ P (k + 1) t2) :
    ∃ t, forUpTo body n s = some t ∧ P n t := by
  induction n with
  | zero => exact ⟨s, rfl, h0⟩
  | succ n ih =>
    obtain ⟨t, ht, hP⟩ := ih (fun k hk => hstep k (Nat.lt_succ_of_lt hk))
    obtain ⟨t2, ht2, hP2⟩ := hstep n (Nat.lt_succ_self n) t hP
    exact ⟨t2, by simp [forUpTo, ht, ht2], hP2⟩

theorem forUpTo_preserves {σ : Type} (P : σ → Prop) (body : Nat → σ → Option σ)
    (n : Nat) (s : σ) (h0 : P s)
    (hstep : ∀ k, k < n → ∀ t, P t → ∃ t2, body k t = some t2 ∧ P t2) :
    ∃ t, forUpTo body n s = some t ∧ P t :=
  forUpTo_invariant (fun _ => P) body n s h0 hstep

theorem writeAt_eq {α : Type} (v : List α) (i : Nat) (a : α) (h : i < v.length) :
    writeAt v i a = some (v.set i a) := by
  simp [writeAt, h]

theorem writeCell_eq {α : Type} (m : List (List α)) (r c : Nat) (a : α) (row : List α)
    (hrow : m[r]? = some row) (hc : c < row.length) :
    writeCell m r c a = some (m.set r (row.set c a)) := by
  have hr : r < m.length := by
    by_contra hcon
    rw [List.getElem?_eq_none (not_lt.mp hcon)] at hrow
    exact Option.noConfusion hrow
  simp [writeCell, hrow, writeAt, hc, hr]

theorem getElem_some_of_hasDims {α : Type} {g : List (List α)} {W H : Nat}
    (hg : HasDims g W H) {r : Nat} (hr : r < H) :
    ∃ row, g[r]? = some row ∧ row.length = W := by
  have hr2 : r < g.length := by rw [hg.1]; exact hr
  exact ⟨g[r], List.getElem?_eq_getElem hr2, hg.2 _ (List.getElem_mem _)⟩

theorem hasDims_set {α : Type} {g : List (List α)} {W H : Nat} (hg : HasDims g W H)
    (r : Nat) (row : List α) (hrow : row.length = W) : HasDims (g.set r row) W H := by
  refine ⟨by rw [List.length_set]; exact hg.1, ?_⟩
  intro x hx
  rcases List.mem_or_eq_of_mem_set hx with h | h
  · exact hg.2 x h
  · rw [h]; exact hrow

/-- A checked write inside the grid succeeds, keeps the dimensions, puts the
value at the written cell and leaves the other cells as they were. -/
theorem writeCell_spec {α : Type} {g : List (List α)} {W H : Nat} (hg : HasDims g W H)
    {r c : Nat} (hr : r < H) (hc : c < W) (a : α) :
    ∃ g2, writeCell g r c a = some g2 ∧ HasDims g2 W H ∧
      readCell g2 r c = some a ∧
      ∀ y x : Nat, (y ≠ r ∨ x ≠ c) → readCell g2 y x = readCell g y x := by
  obtain ⟨row, hrow, hlen⟩ := getElem_some_of_hasDims hg hr
  have hr2 : r < g.length := by rw [hg.1]; exact hr
  refine ⟨g.set r (row.set c a), writeCell_eq g r c a row hrow (by rw [hlen]; exact hc),
    hasDims_set hg r _ (by rw [List.length_set]; exact hlen), ?_, ?_⟩
  · simp [readCell, readAt_natCast, hr2, hlen, hc]
  · intro y x hyx
    simp only [readCell, readAt_natCast]
    by_cases hy : y = r
    · subst hy
      have hx : x ≠ c := by
        rcases hyx with h | h
        · exact absurd rfl h
        · exact h
      simp [hr2, hrow, List.getElem?_set_ne (Ne.symm hx)]
    · simp [List.getElem?_set_ne (Ne.symm hy)]

namespace Cellular2d

theorem smoothCell_spec {g : List (List Bool)} {W H : Nat} (hg : HasDims g W H)
    {h w : Nat} (hh : h < H) (hw : w < W) :
    ∃ g2, smoothCell h w g = some g2 ∧ HasDims g2 W H ∧
      readCell g2 h w = some (rule (aliveAt g w h) (aliveNeighbours W H g w h)) ∧
      ∀ y x : Nat, (y ≠ h ∨ x ≠ w) → readCell g2 y x = readCell g y x := by
  have hH : 0 < H := Nat.lt_of_le_of_lt (Nat.zero_le _) hh
  have hin : outside W H (w : Int) (h : Int) = false := by
    rw [outside_eq_false_iff]; omega
  unfold smoothCell
  rw [countAliveNeighbours_eq hg hH, readCell_of_inside hg hin]
  simp only [Option.some_bind]
  cases hcur : aliveAt g w h
  · obtain ⟨g2, h1, h2, h3, h4⟩ :=
      writeCell_spec hg hh hw (decide (aliveNeighbours W H g w h > 4))
    exact ⟨g2, by simpa using h1, h2, by simpa [rule] using h3, h4⟩
  · obtain ⟨g2, h1, h2, h3, h4⟩ :=
      writeCell_spec hg hh hw (!(decide (aliveNeighbours W H g w h < 3)))
    refine ⟨g2, by simpa using h1, h2, ?_, h4⟩
    rw [h3]
    by_cases hn : aliveNeighbours W H g w h < 3
    · simp [rule, hn, Nat.not_le.mpr hn]
    · simp [rule, hn, Nat.not_lt.mp hn]

theorem smoothRow_hasDims {g : List (List Bool)} {W H : Nat} (hg : HasDims g W H)
    {h : Nat} (hh : h < H) (n : Nat) (hn : n ≤ W) :
    ∃ g2, forUpTo (smoothCell h) n g = some g2 ∧ HasDims g2 W H := by
  apply forUpTo_preserves (fun m => HasDims m W H) _ n g hg
  intro k hk t ht
  obtain ⟨g2, h1, h2, -⟩ := smoothCell_spec ht hh (Nat.lt_of_lt_of_le hk hn)
  exact ⟨g2, h1, h2⟩

theorem Smooth_hasDims {g : List (List Bool)} {W H : Nat} (hg : HasDims g W H) :
    ∃ g2, Smooth g = some g2 ∧ HasDims g2 W H := by
  unfold Smooth
  rw [hg.1]
  apply forUpTo_preserves (fun m => HasDims m W H) _ H g hg
  intro k hk t ht
  obtain ⟨row0, h0, hlen⟩ := readAt_zero_of_hasDims ht (Nat.lt_of_le_of_lt (Nat.zero_le _) hk)
  simp only [h0, Option.some_bind, hlen]
  exact smoothRow_hasDims ht hk W (le_refl _)

theorem generateCell_spec {g : List (List Bool)} {W H : Nat} (hg : HasDims g W H)
    {h w : Nat} (hh : h < H) (hw : w < W) (rs : RandState) :
    ∃ g2, generateCell h w (g, rs) = some (g2, { stream := rs.stream, pos := rs.pos + 1 }) ∧
      HasDims g2 W H ∧
      readCell g2 h w = some (startsAlive (rs.stream rs.pos)) ∧
      ∀ y x : Nat, (y ≠ h ∨ x ≠ w) → readCell g2 y x = readCell g y x := by
  obtain ⟨g2, h1, h2, h3, h4⟩ := writeCell_spec hg hh hw (startsAlive (rs.stream rs.pos))
  exact ⟨g2, by simp [generateCell, rand, h1], h2, h3, h4⟩

/-- One row of `Generate`: the loop over `w` of row `h`. -/
theorem generateRow_spec {g : List (List Bool)} {W H : Nat} (hg : HasDims g W H)
    {h : Nat} (hh : h < H) (rs : RandState) (n : Nat) (hn : n ≤ W) :
    ∃ g2, forUpTo (generateCell h) n (g, rs) =
        some (g2, { stream := rs.stream, pos := rs.pos + n }) ∧
      HasDims g2 W H ∧
      (∀ x : Nat, x < n → readCell g2 h x = some (startsAlive (rs.stream (rs.pos + x)))) ∧
      ∀ y x : Nat, y ≠ h → readCell g2 y x = readCell g y x := by
  obtain ⟨t, ht, hP⟩ := forUpTo_invariant
    (fun k (st : List (List Bool) × RandState) =>
      st.2 = { stream := rs.stream, pos := rs.pos + k } ∧ HasDims st.1 W H ∧
      (∀ x : Nat, x < k → readCell st.1 h x = some (startsAlive (rs.stream (rs.pos + x)))) ∧
      ∀ y x : Nat, y ≠ h → readCell st.1 y x = readCell g y x)
    (generateCell h) n (g, rs)
    ⟨rfl, hg, fun x hx => absurd hx (Nat.not_lt_zero x), fun _ _ _ => rfl⟩
    (by
      rintro k hk ⟨m, r⟩ ⟨hr, hm, hrow, hrest⟩
      simp only at hr hm hrow hrest
      subst hr
      obtain ⟨g2, h1, h2, h3, h4⟩ :=
        generateCell_spec hm hh (Nat.lt_of_lt_of_le hk hn) { stream := rs.stream, pos := rs.pos + k }
      refine ⟨_, h1, rfl, h2, ?_, ?_⟩
      · intro x hx
        rcases Nat.lt_succ_iff_lt_or_eq.mp hx with hlt | heq
        · rw [h4 h x (Or.inr (Nat.ne_of_lt hlt))]
          exact hrow x hlt
        · rw [heq]; exact h3
      · intro y x hy
        rw [h4 y x (Or.inl hy)]
        exact hrest y x hy)
  obtain ⟨m, r⟩ := t
  obtain ⟨hr, hm, hrow, hrest⟩ := hP
  simp only at hr hm hrow hrest
  subst hr
  exact ⟨m, ht, hm, hrow, hrest⟩

/-- The method `Generate` on a grid of `H` rows of `W` columns: it returns,
makes `W * H` draws, keeps the dimensions, and the cell `(x, y)` is decided by
the draw number `y * W + x`. -/
theorem Generate_spec (c : Cellular2d) {W H : Nat} (hg : HasDims c.map W H)
    (hw : c.width = W) (hh : c.height = H) (rs : RandState) :
    ∃ g2, Generate c rs = some (g2, { stream := rs.stream, pos := rs.pos + H * W }) ∧
      HasDims g2 W H ∧
      ∀ x y : Nat, x < W → y < H →
        readCell g2 y x = some (startsAlive (rs.stream (rs.pos + (y * W + x)))) := by
  unfold Generate
  rw [hw, hh]
  obtain ⟨t, ht, hP⟩ := forUpTo_invariant
    (fun k (st : List (List Bool) × RandState) =>
      st.2 = { stream := rs.stream, pos := rs.pos + k * W } ∧ HasDims st.1 W H ∧
      ∀ x y : Nat, x < W → y < k →
        readCell st.1 y x = some (startsAlive (rs.stream (rs.pos + (y * W + x)))))
    (fun h st => forUpTo (generateCell h) W st) H (c.map, rs)
    ⟨by simp, hg, fun x y _ hy => absurd hy (Nat.not_lt_zero y)⟩
    (by
      rintro k hk ⟨m, r⟩ ⟨hr, hm, hcells⟩
      simp only at hr hm hcells
      subst hr
      obtain ⟨g2, h1, h2, h3, h4⟩ :=
        generateRow_spec hm hk { stream := rs.stream, pos := rs.pos + k * W } W (le_refl _)
      refine ⟨_, h1, ?_, h2, ?_⟩
      · simp only [RandState.mk.injEq, true_and]
        rw [Nat.succ_mul]; omega
      · intro x y hx hy
        rcases Nat.lt_succ_iff_lt_or_eq.mp hy with hlt | heq
        · rw [h4 y x (Nat.ne_of_lt hlt)]
          exact hcells x y hx hlt
        · rw [heq, h3 x hx]
          simp only [Nat.add_assoc])
  obtain ⟨m, r⟩ := t
  obtain ⟨hr, hm, hcells⟩ := hP
  simp only at hr hm hcells
  subst hr
  exact ⟨m, ht, hm, hcells⟩

theorem hasDims_replicate {α : Type} (W H : Nat) (a : α) :
    HasDims (List.replicate H (List.replicate W a)) W H := by
  refine ⟨List.length_replicate _ _, ?_⟩
  intro row hrow
  rw [List.eq_of_mem_replicate hrow, List.length_replicate]

end Cellular2d

namespace Cellular

theorem flat_neighbourTest_eq (width size : Nat) (map : List Bool) (hsize : size ≤ map.length)
    (x y i j : Int) :
    neighbourTest width size map x y i j =
      some (flatCounts size map ((x + i) * (width : Int) + (y + j)) && !(i == 0 && j == 0)) := by
  unfold neighbourTest flatCounts IsInBounds
  by_cases hout : (x + i) * (width : Int) + (y + j) < 0 ∨
      (size : Int) ≤ (x + i) * (width : Int) + (y + j)
  · rcases hout with h | h
    · simp [h]
    · simp [h]
  · have h0 : 0 ≤ (x + i) * (width : Int) + (y + j) := by omega
    have h1 : (x + i) * (width : Int) + (y + j) < (map.length : Int) := by omega
    obtain ⟨b, hb, -⟩ := readAt_eq_some_of_lt map _ h0 h1
    have h2 : ¬ ((x + i) * (width : Int) + (y + j) < 0) := by omega
    have h3 : ¬ ((size : Int) ≤ (x + i) * (width : Int) + (y + j)) := by omega
    simp [h2, h3, hb]

theorem flat_countAliveNeighbours_eq (width size : Nat) (map : List Bool) (hw : 0 < width)
    (hsize : size ≤ map.length) (index : Nat) :
    countAliveNeighbours width size map index =
      some (flatAliveNeighbours width size map index) := by
  have hw0 : width ≠ 0 := Nat.pos_iff_ne_zero.mp hw
  have e1 : ((-1 : Int) == 0) = false := by decide
  have e2 : ((1 : Int) == 0) = false := by decide
  have e3 : ((0 : Int) == 0) = true := by decide
  simp only [countAliveNeighbours, hw0, if_false, offsetRange, List.foldlM_cons,
    List.foldlM_nil, flat_neighbourTest_eq width size map hsize, Option.bind_eq_bind,
    Option.some_bind, Option.pure_def, Option.bind_some, flatAliveNeighbours,
    length_filter_offsets8, bump_eq, e1, e2, e3, Bool.and_true, Bool.and_false,
    Bool.false_and, Bool.true_and, Bool.not_true, Bool.not_false, Bool.toNat_false]
  congr 1
  omega

/-- The draw loop shared by the flat variants: `n` iterations from the state
`(map, rs)` return, make `n` draws, keep the length, and decide the cell
`i < n` by the draw number `i`. -/
theorem generateLoop_spec (map : List Bool) (rs : RandState) (n : Nat)
    (hn : n ≤ map.length) :
    ∃ m2, forUpTo generateCell n (map, rs) =
        some (m2, { stream := rs.stream, pos := rs.pos + n }) ∧
      m2.length = map.length ∧
      ∀ i : Nat, i < n → readAt m2 i = some (startsAlive (rs.stream (rs.pos + i))) := by
  obtain ⟨t, ht, hP⟩ := forUpTo_invariant
    (fun k (st : List Bool × RandState) =>
      st.2 = { stream := rs.stream, pos := rs.pos + k } ∧ st.1.length = map.length ∧
      ∀ i : Nat, i < k → readAt st.1 i = some (startsAlive (rs.stream (rs.pos + i))))
    generateCell n (map, rs)
    ⟨rfl, rfl, fun i hi => absurd hi (Nat.not_lt_zero i)⟩
    (by
      rintro k hk ⟨m, r⟩ ⟨hr, hm, hcells⟩
      simp only at hr hm hcells
      subst hr
      have hk2 : k < m.length := by rw [hm]; exact Nat.lt_of_lt_of_le hk hn
      refine ⟨(m.set k (startsAlive (rs.stream (rs.pos + k))),
          { stream := rs.stream, pos := rs.pos + (k + 1) }), ?_, rfl, ?_, ?_⟩
      · simp [generateCell, rand, writeAt_eq _ _ _ hk2, Nat.add_assoc]
      · simp only [List.length_set]; exact hm
      · intro i hi
        simp only [readAt_natCast]
        rcases Nat.lt_succ_iff_lt_or_eq.mp hi with hlt | heq
        · rw [List.getElem?_set_ne (Nat.ne_of_gt hlt), ← readAt_natCast]
          exact hcells i hlt
        · subst heq
          simp [hk2])
  obtain ⟨m, r⟩ := t
  obtain ⟨hr, hm, hcells⟩ := hP
  simp only at hr hm hcells
  subst hr
  exact ⟨m, ht, hm, hcells⟩

end Cellular

namespace Cellular1d

theorem countAliveNeighbours_eq_flat (width : Nat) (map : List Bool) (index : Nat) :
    countAliveNeighbours width map index =
      Cellular.countAliveNeighbours width map.length map index := rfl

end Cellular1d

theorem forUpTo_five {σ : Type} (pass : σ → Option σ) (g : σ) :
    forUpTo (fun _ m => pass m) 5 g = fivePasses pass g := by
  simp only [forUpTo, fivePasses, Option.some_bind, Option.bind_assoc]

theorem forUpToIncl_four {σ : Type} (pass : σ → Option σ) (g : σ) :
    forUpToIncl (fun _ m => pass m) 4 g = fivePasses pass g := by
  simp only [forUpToIncl, fivePasses, Option.bind_assoc]

/-- C1 (the code departs from the claim): on the all-dead grid of 2 rows of 3
columns, `Cellular2d::Smooth` leaves the cell `(1,1)` alive, because it counts
the cells `(0,0)`, `(2,0)` and `(0,1)` that the same pass has just made alive;
counted in the input grid the cell has 3 alive neighbours and stays dead, as
in the pass of the specification and in the original `simStep`. -/
theorem C1_Smooth_reads_cells_rewritten_in_the_pass :
    Cellular2d.Smooth (deadGrid 3 2) = some [[true, false, true], [true, true, true]] ∧
    aliveAt (deadGrid 3 2) 1 1 = false ∧
    aliveNeighbours 3 2 (deadGrid 3 2) 1 1 = 3 ∧
    rule false 3 = false ∧
    syncSmooth 3 2 (deadGrid 3 2) = [[true, false, true], [true, false, true]] ∧
    simStep [[0, 0, 0], [0, 0, 0]] 3 2 = some [[1, 0, 1], [1, 0, 1]] := by
  decide

/-- C2: on a grid of `H > 0` rows of `W > 0` columns and at an in-bounds cell
`(x, y)`, `Cellular2d::countAliveNeighbours(x, y)` returns the number of the 8
offsets that lead outside `[0,W) × [0,H)` plus the number of those that lead to
an in-bounds alive cell; at each corner of the 3×3 all-dead grid it returns 5,
the number of out-of-bounds positions there. -/
theorem C2_countAliveNeighbours_counts (W H : Nat) (_hW : 0 < W) (hH : 0 < H)
    (g : List (List Bool)) (hg : HasDims g W H) (x y : Nat) (_hx : x < W) (_hy : y < H) :
    Cellular2d.countAliveNeighbours g x y =
        some (outsideCount W H x y + aliveInsideCount W H g x y) ∧
    Cellular2d.countAliveNeighbours (deadGrid 3 3) 0 0 = some 5 ∧
    Cellular2d.countAliveNeighbours (deadGrid 3 3) 2 0 = some 5 ∧
    Cellular2d.countAliveNeighbours (deadGrid 3 3) 0 2 = some 5 ∧
    Cellular2d.countAliveNeighbours (deadGrid 3 3) 2 2 = some 5 ∧
    outsideCount 3 3 0 0 = 5 ∧ aliveInsideCount 3 3 (deadGrid 3 3) 0 0 = 0 := by
  refine ⟨Cellular2d.countAliveNeighbours_eq hg hH x y, ?_⟩
  decide

/-- C2 at a concrete input: the cell `(1, 2)` of a 3×3 grid with 5 alive cells. -/
theorem C2_countAliveNeighbours_counts_witness :
    0 < 3 ∧ 0 < 3 ∧
    HasDims [[true, false, true], [false, false, true], [true, true, false]] 3 3 ∧
    1 < 3 ∧ 2 < 3 ∧
    (Cellular2d.countAliveNeighbours
        [[true, false, true], [false, false, true], [true, true, false]] (1 : Nat) (2 : Nat) =
        some (outsideCount 3 3 (1 : Nat) (2 : Nat) +
          aliveInsideCount 3 3
            [[true, false, true], [false, false, true], [true, true, false]] (1 : Nat) (2 : Nat)) ∧
    Cellular2d.countAliveNeighbours (deadGrid 3 3) 0 0 = some 5 ∧
    Cellular2d.countAliveNeighbours (deadGrid 3 3) 2 0 = some 5 ∧
    Cellular2d.countAliveNeighbours (deadGrid 3 3) 0 2 = some 5 ∧
    Cellular2d.countAliveNeighbours (deadGrid 3 3) 2 2 = some 5 ∧
    outsideCount 3 3 0 0 = 5 ∧ aliveInsideCount 3 3 (deadGrid 3 3) 0 0 = 0) :=
  ⟨by decide, by decide, by simp [HasDims], by decide, by decide,
    C2_countAliveNeighbours_counts 3 3 (by decide) (by decide) _ (by simp [HasDims]) 1 2
      (by decide) (by decide)⟩

/-- C3 (the code departs from the claim): on the all-dead grid of 2 rows of 3
columns one pass of `Cellular2d::Smooth` makes 5 cells alive, while one pass
of `Cellular1d::Smooth` and of `Cellular::Smooth` on its flattening leaves all
6 cells dead: the flat variants take the cell before the first column (after
the last column) from the neighbouring row instead of counting it out of
bounds. -/
theorem C3_flat_variants_differ_from_Cellular2d :
    Cellular2d.Smooth (deadGrid 3 2) = some [[true, false, true], [true, true, true]] ∧
    flatten (deadGrid 3 2) = [false, false, false, false, false, false] ∧
    Cellular1d.Smooth 3 (flatten (deadGrid 3 2)) =
      some [false, false, false, false, false, false] ∧
    Cellular.Smooth 3 6 (flatten (deadGrid 3 2)) =
      some [false, false, false, false, false, false] ∧
    flatten [[true, false, true], [true, true, true]] ≠
      [false, false, false, false, false, false] := by
  decide

/-- C4 (the code departs from the claim): on the 3×3 all-dead grid the flat
variants return 4, 2, 2 and 4 at the corner indices 0, 2, 6 and 8, not 5: of
the five positions that leave the grid, those that only leave it through the
first or last column have an index inside `[0, size)` and are read as cells
of the neighbouring row. -/
theorem C4_flat_corner_counts :
    [0, 2, 6, 8].map (Cellular1d.countAliveNeighbours 3 (flatten (deadGrid 3 3))) =
      [some 4, some 2, some 2, some 4] ∧
    [0, 2, 6, 8].map (Cellular.countAliveNeighbours 3 9 (flatten (deadGrid 3 3))) =
      [some 4, some 2, some 2, some 4] ∧
    [(0, 0), (2, 0), (0, 2), (2, 2)].map
        (fun p => Cellular2d.countAliveNeighbours (deadGrid 3 3) p.1 p.2) =
      [some 5, some 5, some 5, some 5] := by
  decide

/-- C5: `Generate` fills the grid in row-major order.  On a `Cellular2d` (and
on a `Cellular1d`) of width `W > 0` and height `H > 0` entered with the
generator in state `rs`, the k-th value returned by `rand()` is
`rs.stream (rs.pos + k)`; on a `Cellular`, which first calls `srand(seed)`, it
is `prng seed k`.  In each case `Generate` returns, the draw
`d = r[y*W + x] % 100 + 1` lies in `[1,100]`, and the cell `(x, y)` (flat
index `y*W + x`) is alive iff `d < 41`. -/
theorem C5_Generate_row_major (W H : Nat) (_hW : 0 < W) (_hH : 0 < H)
    (prng : Nat → Nat → Nat) (rs : RandState)
    (c2 : Cellular2d) (h2 : HasDims c2.map W H) (h2w : c2.width = W) (h2h : c2.height = H)
    (c1 : Cellular1d) (h1 : c1.map.length = H * W)
    (c : Cellular) (hc : c.map.length = H * W) (hcs : c.size = H * W) :
    (∃ g rs2, Cellular2d.Generate c2 rs = some (g, rs2) ∧
      ∀ x y : Nat, x < W → y < H →
        1 ≤ rs.stream (rs.pos + (y * W + x)) % 100 + 1 ∧
        rs.stream (rs.pos + (y * W + x)) % 100 + 1 ≤ 100 ∧
        readCell g y x = some (decide (rs.stream (rs.pos + (y * W + x)) % 100 + 1 < 41))) ∧
    (∃ m rs2, Cellular1d.Generate c1 rs = some (m, rs2) ∧
      ∀ x y : Nat, x < W → y < H →
        readAt m ((y * W + x : Nat) : Int) =
          some (decide (rs.stream (rs.pos + (y * W + x)) % 100 + 1 < 41))) ∧
    (∃ m rs2, Cellular.Generate prng c rs = some (m, rs2) ∧
      ∀ x y : Nat, x < W → y < H →
        1 ≤ prng c.seed (y * W + x) % 100 + 1 ∧
        prng c.seed (y * W + x) % 100 + 1 ≤ 100 ∧
        readAt m ((y * W + x : Nat) : Int) =
          some (decide (prng c.seed (y * W + x) % 100 + 1 < 41))) := by
  have hidx : ∀ x y : Nat, x < W → y < H → y * W + x < H * W := by
    intro x y hx hy
    calc y * W + x < y * W + W := Nat.add_lt_add_left hx _
      _ = (y + 1) * W := (Nat.succ_mul y W).symm
      _ ≤ H * W := Nat.mul_le_mul_right W hy
  refine ⟨?_, ?_, ?_⟩
  · obtain ⟨g, hgen, -, hcells⟩ := Cellular2d.Generate_spec c2 h2 h2w h2h rs
    refine ⟨g, _, hgen, fun x y hx hy => ⟨Nat.le_add_left 1 _, ?_, hcells x y hx hy⟩⟩
    have := Nat.mod_lt (rs.stream (rs.pos + (y * W + x))) (by decide : 0 < 100)
    omega
  · obtain ⟨m, hgen, -, hcells⟩ :=
      Cellular.generateLoop_spec c1.map rs c1.map.length (le_refl _)
    refine ⟨m, _, hgen, fun x y hx hy => ?_⟩
    exact hcells (y * W + x) (by rw [h1]; exact hidx x y hx hy)
  · obtain ⟨m, hgen, -, hcells⟩ :=
      Cellular.generateLoop_spec c.map (srand prng c.seed rs) c.size (by rw [hc, hcs])
    refine ⟨m, _, hgen, fun x y hx hy => ⟨Nat.le_add_left 1 _, ?_, ?_⟩⟩
    · have := Nat.mod_lt (prng c.seed (y * W + x)) (by decide : 0 < 100)
      omega
    · have := hcells (y * W + x) (by rw [hcs]; exact hidx x y hx hy)
      simpa [srand] using this

/-- C5 at a concrete input: 2×2 maps, the generator 3 draws into the sequence
`37 * k + 5`, and `srand(7)` installing the sequence `7 * k + 11`. -/
theorem C5_Generate_row_major_witness :
    0 < 2 ∧ 0 < 2 ∧
    HasDims (deadGrid 2 2) 2 2 ∧ (2 : Nat) = 2 ∧ (2 : Nat) = 2 ∧
    (List.replicate 4 false).length = 2 * 2 ∧
    (List.replicate 4 false).length = 2 * 2 ∧ (4 : Nat) = 2 * 2 ∧
    ((∃ g rs2, Cellular2d.Generate { map := deadGrid 2 2, width := 2, height := 2 }
          { stream := fun k => 37 * k + 5, pos := 3 } = some (g, rs2) ∧
      ∀ x y : Nat, x < 2 → y < 2 →
        1 ≤ (37 * (3 + (y * 2 + x)) + 5) % 100 + 1 ∧
        (37 * (3 + (y * 2 + x)) + 5) % 100 + 1 ≤ 100 ∧
        readCell g y x = some (decide ((37 * (3 + (y * 2 + x)) + 5) % 100 + 1 < 41))) ∧
    (∃ m rs2, Cellular1d.Generate
          { map := List.replicate 4 false, width := 2, height := 2, seed := 7 }
          { stream := fun k => 37 * k + 5, pos := 3 } = some (m, rs2) ∧
      ∀ x y : Nat, x < 2 → y < 2 →
        readAt m ((y * 2 + x : Nat) : Int) =
          some (decide ((37 * (3 + (y * 2 + x)) + 5) % 100 + 1 < 41))) ∧
    (∃ m rs2, Cellular.Generate (fun seed k => seed * k + 11)
          { map := List.replicate 4 false, width := 2, height := 2, size := 4, seed := 7 }
          { stream := fun k => 37 * k + 5, pos := 3 } = some (m, rs2) ∧
      ∀ x y : Nat, x < 2 → y < 2 →
        1 ≤ (7 * (y * 2 + x) + 11) % 100 + 1 ∧
        (7 * (y * 2 + x) + 11) % 100 + 1 ≤ 100 ∧
        readAt m ((y * 2 + x : Nat) : Int) =
          some (decide ((7 * (y * 2 + x) + 11) % 100 + 1 < 41)))) :=
  ⟨by decide, by decide, by simp [HasDims, deadGrid], rfl, rfl, by decide, by decide, rfl,
    C5_Generate_row_major 2 2 (by decide) (by decide) (fun seed k => seed * k + 11)
      { stream := fun k => 37 * k + 5, pos := 3 }
      { map := deadGrid 2 2, width := 2, height := 2 } (by simp [HasDims, deadGrid]) rfl rfl
      { map := List.replicate 4 false, width := 2, height := 2, seed := 7 } (by decide)
      { map := List.replicate 4 false, width := 2, height := 2, size := 4, seed := 7 }
      (by decide) rfl⟩

/-- C7 (the code departs from the claim): `Cellular1d::Generate` does not call
`srand`, so `Cellular1d(3, 3, 0)` built when the shared generator is about to
return the values 0, 0, ... has all 9 cells alive, and the same construction
built when it is about to return 99, 99, ... has all 9 cells dead; `Cellular`,
which does call `srand(seed)`, returns one grid in both states. -/
theorem C7_Cellular1d_ignores_seed :
    (Cellular1d.construct 3 3 0 (constRand 0)).map (fun r => Cellular1d.GetMap r.1) =
      some [true, true, true, true, true, true, true, true, true] ∧
    (Cellular1d.construct 3 3 0 (constRand 99)).map (fun r => Cellular1d.GetMap r.1) =
      some [false, false, false, false, false, false, false, false, false] ∧
    (Cellular.construct (fun _ _ => 99) 3 3 0 (constRand 0)).map
        (fun r => Cellular.GetMap r.1) =
      (Cellular.construct (fun _ _ => 99) 3 3 0 (constRand 99)).map
        (fun r => Cellular.GetMap r.1) :=
  ⟨by decide, by decide, rfl⟩

theorem forUpTo_fixed {σ : Type} (body : Nat → σ → Option σ) (n : Nat) (s : σ)
    (h : ∀ k, k < n → body k s = some s) : forUpTo body n s = some s := by
  obtain ⟨t, ht, hP⟩ := forUpTo_preserves (fun t => t = s) body n s rfl
    (fun k hk t ht => ⟨s, by rw [ht]; exact h k hk, rfl⟩)
  rw [ht, hP]

theorem Cellular2d.Smooth_deadGrid_zero_width (H : Nat) :
    Cellular2d.Smooth (deadGrid 0 H) = some (deadGrid 0 H) := by
  unfold Cellular2d.Smooth
  apply forUpTo_fixed
  intro k hk
  have hH : 0 < H := by
    have : (deadGrid 0 H).length = H := List.length_replicate _ _
    omega
  obtain ⟨row0, h0, hlen⟩ := readAt_zero_of_hasDims (Cellular2d.hasDims_replicate 0 H false) hH
  have h0b : readAt (deadGrid 0 H) 0 = some row0 := h0
  rw [h0b]
  simp [hlen, forUpTo]

theorem flatten_deadGrid_zero_width (H : Nat) : flatten (deadGrid 0 H) = [] := by
  induction H with
  | zero => rfl
  | succ n ih =>
    have hcons : deadGrid 0 (n + 1) = [] :: deadGrid 0 n := rfl
    rw [hcons, flatten, ih]
    rfl

/-- C8 (counterexample): with width 0 and height 0, and with width 0 and
height 2, the constructors do not fail: they return an object whose map has
no cell. -/
theorem C8_zero_dimensions_are_accepted :
    (Cellular2d.construct 0 0 (constRand 0)).isSome = true ∧
    (Cellular2d.construct 0 0 (constRand 0)).map (fun r => Cellular2d.GetMap r.1) = some [] ∧
    (Cellular2d.construct 0 2 (constRand 0)).map (fun r => Cellular2d.GetMap r.1) =
      some [[], []] ∧
    (Cellular1d.construct 0 0 0 (constRand 0)).map (fun r => Cellular1d.GetMap r.1) = some [] ∧
    (Cellular.construct (fun _ _ => 0) 0 0 0 (constRand 0)).map
      (fun r => Cellular.GetMap r.1) = some [] := by
  decide

/-- C8 (amended): no constructor checks its arguments.  With `width = 0` or
`height = 0` (and neither negative) construction returns an object: for
`Cellular2d` the map of `height` rows of `width` columns, which has no cell,
for `Cellular1d` and `Cellular` the empty map; no value is drawn. -/
theorem C8_construct_with_zero_dimension (prng : Nat → Nat → Nat) (W H seed : Nat)
    (h : W = 0 ∨ H = 0) (rs : RandState) :
    Cellular2d.construct W H rs =
      some ({ map := deadGrid W H, width := W, height := H }, rs) ∧
    flatten (deadGrid W H) = [] ∧
    Cellular1d.construct W H seed rs =
      some ({ map := [], width := W, height := H, seed := seed }, rs) ∧
    Cellular.construct prng W H seed rs =
      some ({ map := [], width := W, height := H, size := H * W, seed := seed },
        srand prng seed rs) ∧
    H * W = 0 := by
  have hz : H * W = 0 := by
    rcases h with h | h <;> simp [h]
  refine ⟨?_, ?_, ?_, ?_, hz⟩
  · rcases h with h | h
    · subst h
      have hgen : Cellular2d.Generate
          { map := List.replicate H (List.replicate 0 false), width := 0, height := H } rs =
          some (deadGrid 0 H, rs) := by
        unfold Cellular2d.Generate
        exact forUpTo_fixed _ _ _ (fun _ _ => rfl)
      have hsm : forUpTo (fun _ m => Cellular2d.Smooth m) 5 (deadGrid 0 H) =
          some (deadGrid 0 H) :=
        forUpTo_fixed _ _ _ (fun _ _ => Cellular2d.Smooth_deadGrid_zero_width H)
      unfold Cellular2d.construct
      rw [hgen]
      simp only [Option.some_bind, hsm]
    · subst h
      rfl
  · rcases h with h | h
    · subst h
      exact flatten_deadGrid_zero_width H
    · subst h; rfl
  · simp [Cellular1d.construct, Cellular1d.Generate, Cellular1d.Smooth, hz, forUpTo]
  · simp [Cellular.construct, Cellular.Generate, Cellular.Smooth, hz, forUpTo]

/-- C8 (amended) at a concrete input: width 0 and height 3. -/
theorem C8_construct_with_zero_dimension_witness :
    ((0 : Nat) = 0 ∨ (3 : Nat) = 0) ∧
    (Cellular2d.construct 0 3 (constRand 5) =
      some ({ map := deadGrid 0 3, width := 0, height := 3 }, constRand 5) ∧
    flatten (deadGrid 0 3) = [] ∧
    Cellular1d.construct 0 3 7 (constRand 5) =
      some ({ map := [], width := 0, height := 3, seed := 7 }, constRand 5) ∧
    Cellular.construct (fun seed k => seed * k + 11) 0 3 7 (constRand 5) =
      some ({ map := [], width := 0, height := 3, size := 3 * 0, seed := 7 },
        srand (fun seed k => seed * k + 11) 7 (constRand 5)) ∧
    3 * 0 = 0) :=
  ⟨Or.inl rfl,
    C8_construct_with_zero_dimension (fun seed k => seed * k + 11) 0 3 7 (Or.inl rfl)
      (constRand 5)⟩

/-- C10: every variant applies exactly 5 smoothing passes to the randomized
grid.  For `Cellular2d`, `Cellular1d` and `Cellular` the map returned by
`GetMap` after construction is `Smooth` applied 5 times to the result of
`Generate` on the freshly allocated all-dead map; the local map of the driver
`o()` is `simStep` applied 5 times to the result of `initialiseMap`. -/
theorem C10_five_smoothing_passes (prng : Nat → Nat → Nat) (W H seed : Nat)
    (rs : RandState) :
    (Cellular2d.construct W H rs).map (fun r => (Cellular2d.GetMap r.1, r.2)) =
      (Cellular2d.Generate { map := deadGrid W H, width := W, height := H } rs).bind
        (fun st => (fivePasses Cellular2d.Smooth st.1).map (fun m => (m, st.2))) ∧
    (Cellular1d.construct W H seed rs).map (fun r => (Cellular1d.GetMap r.1, r.2)) =
      (Cellular1d.Generate
          { map := List.replicate (H * W) false, width := W, height := H, seed := seed }
          rs).bind
        (fun st => (fivePasses (Cellular1d.Smooth W) st.1).map (fun m => (m, st.2))) ∧
    (Cellular.construct prng W H seed rs).map (fun r => (Cellular.GetMap r.1, r.2)) =
      (Cellular.Generate prng
          { map := List.replicate (H * W) false, width := W, height := H,
            size := H * W, seed := seed } rs).bind
        (fun st => (fivePasses (Cellular.Smooth W (H * W)) st.1).map (fun m => (m, st.2))) ∧
    o rs =
      (initialiseMap 100 45 rs).bind
        (fun st => (fivePasses (fun m => simStep m 100 45) st.1).map (fun m => (m, st.2))) := by
  refine ⟨?_, ?_, ?_, ?_⟩
  · unfold Cellular2d.construct
    simp only [forUpTo_five, deadGrid, Cellular2d.GetMap]
    cases Cellular2d.Generate
      { map := List.replicate H (List.replicate W false), width := W, height := H } rs with
    | none => rfl
    | some st => cases h : fivePasses Cellular2d.Smooth st.1 <;> simp [h]
  · unfold Cellular1d.construct
    simp only [forUpTo_five, Cellular1d.GetMap]
    cases Cellular1d.Generate
      { map := List.replicate (H * W) false, width := W, height := H, seed := seed } rs with
    | none => rfl
    | some st => cases h : fivePasses (Cellular1d.Smooth W) st.1 <;> simp [h]
  · unfold Cellular.construct
    simp only [forUpTo_five, Cellular.GetMap]
    cases Cellular.Generate prng
      { map := List.replicate (H * W) false, width := W, height := H,
        size := H * W, seed := seed } rs with
    | none => rfl
    | some st => cases h : fivePasses (Cellular.Smooth W (H * W)) st.1 <;> simp [h]
  · unfold o oWith
    simp only [forUpToIncl_four]
    cases initialiseMap 100 45 rs with
    | none => rfl
    | some st => cases h : fivePasses (fun m => simStep m 100 45) st.1 <;> simp [h]

/-! ## The start-alive chance, the draws of a construction, idempotence -/

/-- C11 (the code departs from the claim): of the 100 values of
`rand() % 100` (draws `d = 1 .. 100`), exactly 40 mark the cell alive, not 41:
the test is `d < chanceToStartAlive` with `chanceToStartAlive = 41`, so the
draw `d = 41` (`rand() % 100 = 40`) leaves the cell dead and the alive
fraction under a uniform draw is 40/100. -/
theorem C11_forty_draws_mark_alive :
    chanceToStartAlive = 41 ∧
    ((List.range 100).filter startsAlive).length = 40 ∧
    (((List.range 100).map (fun r => r % 100 + 1)).filter
      (fun d => decide (d < chanceToStartAlive))).length = 40 ∧
    startsAlive 39 = true ∧ startsAlive 40 = false := by
  decide

/-- C13: `Cellular2d::Smooth` is not idempotent.  On the all-dead grid of 3
rows of 3 columns a first pass makes the four corners alive, and a second pass
on that result makes the other five cells alive. -/
theorem C13_Smooth_not_idempotent :
    ∃ W H : Nat, ∃ g g1 g2 : List (List Bool),
      0 < W ∧ 0 < H ∧ HasDims g W H ∧
      Cellular2d.Smooth g = some g1 ∧ Cellular2d.Smooth g1 = some g2 ∧ g2 ≠ g1 :=
  ⟨3, 3, deadGrid 3 3, [[true, false, true], [false, false, false], [true, false, true]],
    [[true, true, true], [true, true, true], [true, true, true]],
    by decide, by decide, by simp [HasDims, deadGrid], by decide, by decide, by decide⟩

/-! ## Reads of the neighbour count -/

/-- C14: neighbour counting cannot fail on a valid grid.  On a grid of `H > 0`
rows of `W > 0` columns and at an in-bounds cell, `countAliveNeighbours`
returns a count in each variant, and whenever `IsInBounds` is false at a
neighbour position, that position is in range and the read of the map there
returns a value: `0 <= nx < W` and `0 <= ny < H` for `Cellular2d`,
`0 <= neighbour < W*H` for `Cellular1d` and `Cellular`. -/
theorem C14_neighbour_reads_in_range (W H : Nat) (hW : 0 < W) (hH : 0 < H)
    (g : List (List Bool)) (hg : HasDims g W H) (x y : Nat) (_hx : x < W) (_hy : y < H)
    (m : List Bool) (hm : m.length = W * H) (index : Nat) (_hindex : index < W * H) :
    (∃ n, Cellular2d.countAliveNeighbours g x y = some n) ∧
    (∀ i j : Int, i ∈ offsetRange → j ∈ offsetRange →
      (∃ out, Cellular2d.IsInBounds g (x + i) (y + j) = some out) ∧
      (Cellular2d.IsInBounds g (x + i) (y + j) = some false →
        0 ≤ (x : Int) + i ∧ (x : Int) + i < W ∧ 0 ≤ (y : Int) + j ∧ (y : Int) + j < H ∧
        ∃ b, readCell g (y + j) (x + i) = some b)) ∧
    (∃ n, Cellular1d.countAliveNeighbours W m index = some n) ∧
    (∀ i j : Int, i ∈ offsetRange → j ∈ offsetRange →
      Cellular1d.IsInBounds m
          ((((index / W : Nat) : Int) + i) * W + (((index % W : Nat) : Int) + j)) = false →
        0 ≤ (((index / W : Nat) : Int) + i) * W + (((index % W : Nat) : Int) + j) ∧
        (((index / W : Nat) : Int) + i) * W + (((index % W : Nat) : Int) + j) < (W * H : Nat) ∧
        ∃ b, readAt m
          ((((index / W : Nat) : Int) + i) * W + (((index % W : Nat) : Int) + j)) = some b) ∧
    (∃ n, Cellular.countAliveNeighbours W (W * H) m index = some n) ∧
    (∀ i j : Int, i ∈ offsetRange → j ∈ offsetRange →
      Cellular.IsInBounds (W * H)
          ((((index / W : Nat) : Int) + i) * W + (((index % W : Nat) : Int) + j)) = false →
        0 ≤ (((index / W : Nat) : Int) + i) * W + (((index % W : Nat) : Int) + j) ∧
        (((index / W : Nat) : Int) + i) * W + (((index % W : Nat) : Int) + j) < (W * H : Nat) ∧
        ∃ b, readAt m
          ((((index / W : Nat) : Int) + i) * W + (((index % W : Nat) : Int) + j)) = some b) := by
  have hflat : ∀ n : Int, 0 ≤ n → n < ((W * H : Nat) : Int) → ∃ b, readAt m n = some b := by
    intro n h0 h1
    obtain ⟨b, hb, -⟩ := readAt_eq_some_of_lt m n h0 (by rw [hm]; exact h1)
    exact ⟨b, hb⟩
  refine ⟨⟨_, Cellular2d.countAliveNeighbours_eq hg hH x y⟩, ?_,
    ⟨_, (Cellular1d.countAliveNeighbours_eq_flat W m index).trans
      (Cellular.flat_countAliveNeighbours_eq W m.length m hW (le_refl _) index)⟩, ?_,
    ⟨_, Cellular.flat_countAliveNeighbours_eq W (W * H) m hW (by rw [hm]) index⟩, ?_⟩
  · intro i j _ _
    refine ⟨⟨_, Cellular2d.IsInBounds_eq hg hH _ _⟩, ?_⟩
    intro hfalse
    rw [Cellular2d.IsInBounds_eq hg hH] at hfalse
    have hout : outside W H (x + i) (y + j) = false := Option.some.inj hfalse
    have hb := (outside_eq_false_iff W H _ _).mp hout
    exact ⟨hb.1, hb.2.2.1, hb.2.1, hb.2.2.2, _, readCell_of_inside hg hout⟩
  · intro i j _ _ hfalse
    simp only [Cellular1d.IsInBounds, Bool.or_eq_false_iff, decide_eq_false_iff_not, hm] at hfalse
    have h0 := Int.not_lt.mp hfalse.1
    have h1 := Int.not_le.mp hfalse.2
    exact ⟨h0, h1, hflat _ h0 h1⟩
  · intro i j _ _ hfalse
    simp only [Cellular.IsInBounds, Bool.or_eq_false_iff, decide_eq_false_iff_not] at hfalse
    have h0 := Int.not_lt.mp hfalse.1
    have h1 := Int.not_le.mp hfalse.2
    exact ⟨h0, h1, hflat _ h0 h1⟩

/-- C14 at a concrete input: the cell `(0, 1)` of a 3×2 grid, and the index 3
of a flat map of 3 * 2 cells. -/
theorem C14_neighbour_reads_in_range_witness :
    0 < 3 ∧ 0 < 2 ∧ HasDims [[true, false, true], [false, false, true]] 3 2 ∧
    0 < 3 ∧ 1 < 2 ∧ [true, false, true, false, false, true].length = 3 * 2 ∧ 3 < 3 * 2 ∧
    ((∃ n, Cellular2d.countAliveNeighbours [[true, false, true], [false, false, true]]
        (0 : Nat) (1 : Nat) = some n) ∧
    (∀ i j : Int, i ∈ offsetRange → j ∈ offsetRange →
      (∃ out, Cellular2d.IsInBounds [[true, false, true], [false, false, true]]
        ((0 : Nat) + i) ((1 : Nat) + j) = some out) ∧
      (Cellular2d.IsInBounds [[true, false, true], [false, false, true]]
          ((0 : Nat) + i) ((1 : Nat) + j) = some false →
        0 ≤ ((0 : Nat) : Int) + i ∧ ((0 : Nat) : Int) + i < (3 : Nat) ∧
        0 ≤ ((1 : Nat) : Int) + j ∧ ((1 : Nat) : Int) + j < (2 : Nat) ∧
        ∃ b, readCell [[true, false, true], [false, false, true]]
          ((1 : Nat) + j) ((0 : Nat) + i) = some b)) ∧
    (∃ n, Cellular1d.countAliveNeighbours 3 [true, false, true, false, false, true] 3 =
      some n) ∧
    (∀ i j : Int, i ∈ offsetRange → j ∈ offsetRange →
      Cellular1d.IsInBounds [true, false, true, false, false, true]
          ((((3 / 3 : Nat) : Int) + i) * (3 : Nat) + (((3 % 3 : Nat) : Int) + j)) = false →
        0 ≤ (((3 / 3 : Nat) : Int) + i) * (3 : Nat) + (((3 % 3 : Nat) : Int) + j) ∧
        (((3 / 3 : Nat) : Int) + i) * (3 : Nat) + (((3 % 3 : Nat) : Int) + j) <
          (3 * 2 : Nat) ∧
        ∃ b, readAt [true, false, true, false, false, true]
          ((((3 / 3 : Nat) : Int) + i) * (3 : Nat) + (((3 % 3 : Nat) : Int) + j)) = some b) ∧
    (∃ n, Cellular.countAliveNeighbours 3 (3 * 2) [true, false, true, false, false, true] 3 =
      some n) ∧
    (∀ i j : Int, i ∈ offsetRange → j ∈ offsetRange →
      Cellular.IsInBounds (3 * 2)
          ((((3 / 3 : Nat) : Int) + i) * (3 : Nat) + (((3 % 3 : Nat) : Int) + j)) = false →
        0 ≤ (((3 / 3 : Nat) : Int) + i) * (3 : Nat) + (((3 % 3 : Nat) : Int) + j) ∧
        (((3 / 3 : Nat) : Int) + i) * (3 : Nat) + (((3 % 3 : Nat) : Int) + j) <
          (3 * 2 : Nat) ∧
        ∃ b, readAt [true, false, true, false, false, true]
          ((((3 / 3 : Nat) : Int) + i) * (3 : Nat) + (((3 % 3 : Nat) : Int) + j)) = some b)) :=
  ⟨by decide, by decide, by simp [HasDims], by decide, by decide, by decide, by decide,
    C14_neighbour_reads_in_range 3 2 (by decide) (by decide) _ (by simp [HasDims]) 0 1
      (by decide) (by decide) [true, false, true, false, false, true] (by decide) 3
      (by decide)⟩

/-! ## The original `simStep` -/

theorem readCell_mem_of_inside {α : Type} {g : List (List α)} {W H : Nat} (hg : HasDims g W H)
    {x y : Int} (hin : outside W H x y = false) :
    ∃ v, readCell g y x = some v ∧ ∃ row ∈ g, v ∈ row := by
  rw [outside_eq_false_iff] at hin
  obtain ⟨row, hrow, hmem⟩ := readAt_eq_some_of_lt g y hin.2.1 (by rw [hg.1]; exact hin.2.2.2)
  obtain ⟨v, hv, hvmem⟩ := readAt_eq_some_of_lt row x hin.1 (by rw [hg.2 row hmem]; exact hin.2.2.1)
  exact ⟨v, by simp [readCell, hrow, hv], row, hmem, hvmem⟩

theorem readCell_valueAt {g : List (List Int)} {W H : Nat} (hg : HasDims g W H)
    {x y : Int} (hin : outside W H x y = false) :
    readCell g y x = some (valueAt g x y) := by
  obtain ⟨v, hv, -⟩ := readCell_mem_of_inside hg hin
  simp [valueAt, hv]

theorem valueAt_binary {g : List (List Int)} {W H : Nat} (hg : HasDims g W H)
    (hbin : IsBinary g) {x y : Int} (hin : outside W H x y = false) :
    valueAt g x y = 0 ∨ valueAt g x y = 1 := by
  obtain ⟨v, hv, row, hrow, hmem⟩ := readCell_mem_of_inside hg hin
  have : valueAt g x y = v := by simp [valueAt, hv]
  rw [this]
  exact hbin row hrow v hmem

theorem countStep_eq {map : List (List Int)} {W H : Nat} (hg : HasDims map W H) (hH : 0 < H)
    (x y i j : Int) (count : Nat) :
    countStep map x y i j count =
      some (count + ((outside W H (x + i) (y + j) || decide (valueAt map (x + i) (y + j) = 1))
        && !(i == 0 && j == 0)).toNat) := by
  obtain ⟨row0, h0, hlen⟩ := readAt_zero_of_hasDims hg hH
  unfold countStep
  by_cases hself : i = 0 ∧ j = 0
  · simp [hself]
  · have hflag : (i == 0 && j == 0) = false := by
      simp only [Bool.and_eq_false_iff, beq_eq_false_iff_ne, ne_eq]
      by_cases hi : i = 0
      · exact Or.inr (fun hj => hself ⟨hi, hj⟩)
      · exact Or.inl hi
    rw [if_neg hself, hflag]
    simp only [Bool.not_false, Bool.and_true]
    cases hout : outside W H (x + i) (y + j)
    · have hb := (outside_eq_false_iff W H _ _).mp hout
      have h1 : ¬ (x + i < 0) := by omega
      have h2 : ¬ (y + j < 0) := by omega
      have h3 : ¬ (x + i ≥ (row0.length : Int) ∨ y + j ≥ (map.length : Int)) := by
        rw [hlen, hg.1]; omega
      rw [if_neg h1, if_neg h2, h0]
      simp only [Option.some_bind]
      rw [if_neg h3, readCell_valueAt hg hout]
      simp only [Option.some_bind, Bool.false_or]
      by_cases hv : valueAt map (x + i) (y + j) = 1
      · simp [hv]
      · simp [hv]
    · simp only [outside, decide_eq_true_eq] at hout
      by_cases h1 : x + i < 0
      · simp [h1]
      · by_cases h2 : y + j < 0
        · simp [h1, h2]
        · have h3 : x + i ≥ (row0.length : Int) ∨ y + j ≥ (map.length : Int) := by
            rw [hlen, hg.1]; omega
          rw [if_neg h1, if_neg h2, h0]
          simp only [Option.some_bind]
          rw [if_pos h3]
          simp

/-- The function `countAliveNeighbours` of `cell.cpp` returns the number of
positions out of bounds plus the number of in-bounds neighbours equal to 1. -/
theorem countAliveNeighbours_orig_eq {map : List (List Int)} {W H : Nat}
    (hg : HasDims map W H) (hH : 0 < H) (x y : Int) :
    countAliveNeighbours map x y =
      some (outsideCount W H x y + onesInsideCount W H map x y) := by
  have e1 : ((-1 : Int) == 0) = false := by decide
  have e2 : ((1 : Int) == 0) = false := by decide
  have e3 : ((0 : Int) == 0) = true := by decide
  simp only [countAliveNeighbours, offsetRange, List.foldlM_cons, List.foldlM_nil,
    countStep_eq hg hH, Option.bind_eq_bind, Option.some_bind, Option.pure_def,
    Option.bind_some, outsideCount, onesInsideCount, length_filter_offsets8,
    e1, e2, e3, Bool.and_true, Bool.and_false, Bool.false_and, Bool.true_and,
    Bool.not_true, Bool.not_false, toNat_or_split, Bool.toNat_false]
  congr 1
  omega

theorem simStepCell_spec {oldMap newMap : List (List Int)} {W H : Nat}
    (hold : HasDims oldMap W H) (hbin : IsBinary oldMap) (hnew : HasDims newMap W H)
    {h w : Nat} (hh : h < H) (hw : w < W) :
    ∃ new2, simStepCell oldMap h w newMap = some new2 ∧ HasDims new2 W H ∧
      readCell new2 h w =
        some (stepValue (valueAt oldMap w h)
          (outsideCount W H w h + onesInsideCount W H oldMap w h)) ∧
      ∀ y x : Nat, (y ≠ h ∨ x ≠ w) → readCell new2 y x = readCell newMap y x := by
  have hH : 0 < H := Nat.lt_of_le_of_lt (Nat.zero_le _) hh
  have hin : outside W H (w : Int) (h : Int) = false := by
    rw [outside_eq_false_iff]; omega
  unfold simStepCell
  rw [countAliveNeighbours_orig_eq hold hH, readCell_valueAt hold hin]
  simp only [Option.some_bind]
  generalize outsideCount W H w h + onesInsideCount W H oldMap w h = n
  obtain ⟨a0, ha1, ha2, ha3, ha4⟩ := writeCell_spec hnew hh hw (0 : Int)
  obtain ⟨a1, hb1, hb2, hb3, hb4⟩ := writeCell_spec hnew hh hw (1 : Int)
  rcases valueAt_binary hold hbin hin with hv | hv
  · rw [hv]
    by_cases hn : n > 4
    · refine ⟨a1, by simp [hn, hb1], hb2, ?_, hb4⟩
      rw [hb3]; simp [stepValue, hn]
    · refine ⟨a0, by simp [hn, ha1], ha2, ?_, ha4⟩
      rw [ha3]; simp [stepValue, hn]
  · rw [hv]
    by_cases hn : n < 3
    · refine ⟨a0, by simp [hn, ha1], ha2, ?_, ha4⟩
      rw [ha3]
      have : ¬ (3 ≤ n) := by omega
      simp [stepValue, this]
    · refine ⟨a1, by simp [hn, hb1], hb2, ?_, hb4⟩
      rw [hb3]
      have : 3 ≤ n := by omega
      simp [stepValue, this]

theorem simStepRow_spec {oldMap newMap : List (List Int)} {W H : Nat}
    (hold : HasDims oldMap W H) (hbin : IsBinary oldMap) (hnew : HasDims newMap W H)
    {h : Nat} (hh : h < H) :
    ∃ new2, forUpTo (simStepCell oldMap h) W newMap = some new2 ∧ HasDims new2 W H ∧
      (∀ x : Nat, x < W → readCell new2 h x =
        some (stepValue (valueAt oldMap x h)
          (outsideCount W H x h + onesInsideCount W H oldMap x h))) ∧
      ∀ y x : Nat, y ≠ h → readCell new2 y x = readCell newMap y x := by
  obtain ⟨t, ht, hP⟩ := forUpTo_invariant
    (fun k (m : List (List Int)) => k ≤ W ∧ HasDims m W H ∧
      (∀ x : Nat, x < k → readCell m h x =
        some (stepValue (valueAt oldMap x h)
          (outsideCount W H x h + onesInsideCount W H oldMap x h))) ∧
      ∀ y x : Nat, y ≠ h → readCell m y x = readCell newMap y x)
    (simStepCell oldMap h) W newMap
    ⟨Nat.zero_le _, hnew, fun x hx => absurd hx (Nat.not_lt_zero x), fun _ _ _ => rfl⟩
    (by
      rintro k hk m ⟨-, hm, hrow, hrest⟩
      obtain ⟨m2, h1, h2, h3, h4⟩ := simStepCell_spec hold hbin hm hh hk
      refine ⟨m2, h1, hk, h2, ?_, ?_⟩
      · intro x hx
        rcases Nat.lt_succ_iff_lt_or_eq.mp hx with hlt | heq
        · rw [h4 h x (Or.inr (Nat.ne_of_lt hlt))]
          exact hrow x hlt
        · rw [heq]; exact h3
      · intro y x hy
        rw [h4 y x (Or.inl hy)]
        exact hrest y x hy)
  exact ⟨t, ht, hP.2.1, hP.2.2.1, hP.2.2.2⟩

/-- The function `simStep` on a 0/1 grid of `H` rows of `W` columns: it
returns a grid of the same dimensions whose every cell is the synchronous
rule applied to the old grid. -/
theorem simStep_spec {oldMap : List (List Int)} {W H : Nat}
    (hold : HasDims oldMap W H) (hbin : IsBinary oldMap) :
    ∃ newMap, simStep oldMap W H = some newMap ∧ HasDims newMap W H ∧
      ∀ w h : Nat, w < W → h < H → readCell newMap h w =
        some (stepValue (valueAt oldMap w h)
          (outsideCount W H w h + onesInsideCount W H oldMap w h)) := by
  have hinit : HasDims (List.replicate H (List.replicate W (0 : Int))) W H :=
    Cellular2d.hasDims_replicate W H 0
  obtain ⟨t, ht, hP⟩ := forUpTo_invariant
    (fun k (m : List (List Int)) => HasDims m W H ∧
      ∀ w h : Nat, w < W → h < k → readCell m h w =
        some (stepValue (valueAt oldMap w h)
          (outsideCount W H w h + onesInsideCount W H oldMap w h)))
    (fun h newMap => (readAt oldMap 0).bind (fun row0 =>
      forUpTo (simStepCell oldMap h) row0.length newMap))
    H (List.replicate H (List.replicate W 0))
    ⟨hinit, fun w h _ hh => absurd hh (Nat.not_lt_zero h)⟩
    (by
      rintro k hk m ⟨hm, hcells⟩
      obtain ⟨row0, h0, hlen⟩ := readAt_zero_of_hasDims hold
        (Nat.lt_of_le_of_lt (Nat.zero_le _) hk)
      simp only [h0, Option.some_bind, hlen]
      obtain ⟨m2, h1, h2, h3, h4⟩ := simStepRow_spec hold hbin hm hk
      refine ⟨m2, h1, h2, ?_⟩
      intro w h hw hh
      rcases Nat.lt_succ_iff_lt_or_eq.mp hh with hlt | heq
      · rw [h4 h w (Nat.ne_of_lt hlt)]
        exact hcells w h hw hlt
      · rw [heq]; exact h3 w hw)
  refine ⟨t, ?_, hP.1, hP.2⟩
  unfold simStep
  rw [hold.1]
  exact ht

/-- C15: the original `simStep` is the synchronous rule.  For `W > 0`, `H > 0`
and a grid `oldMap` of `H` rows of `W` columns of 0/1 values,
`simStep(oldMap, W, H)` returns a grid of the same dimensions; for every cell,
`countAliveNeighbours(oldMap, w, h)` returns the number `n` of positions out
of bounds plus the number of in-bounds neighbours equal to 1 in `oldMap`, and
the new cell `[h][w]` is 1 iff `oldMap[h][w]` is 1 and `n >= 3`, or
`oldMap[h][w]` is 0 and `n > 4`; otherwise it is 0. -/
theorem C15_simStep_synchronous (W H : Nat) (_hW : 0 < W) (hH : 0 < H)
    (oldMap : List (List Int)) (hold : HasDims oldMap W H)
    (hbin : ∀ row ∈ oldMap, ∀ v ∈ row, v = 0 ∨ v = 1) :
    ∃ newMap, simStep oldMap W H = some newMap ∧
      newMap.length = H ∧ (∀ row ∈ newMap, row.length = W) ∧
      ∀ w h : Nat, w < W → h < H →
        countAliveNeighbours oldMap w h =
          some (outsideCount W H w h + onesInsideCount W H oldMap w h) ∧
        readCell newMap h w =
          some (if (valueAt oldMap w h = 1 ∧
                    outsideCount W H w h + onesInsideCount W H oldMap w h ≥ 3) ∨
                  (valueAt oldMap w h = 0 ∧
                    outsideCount W H w h + onesInsideCount W H oldMap w h > 4)
                then 1 else 0) := by
  obtain ⟨newMap, hrun, hdims, hcells⟩ := simStep_spec hold hbin
  exact ⟨newMap, hrun, hdims.1, hdims.2, fun w h hw hh =>
    ⟨countAliveNeighbours_orig_eq hold hH w h, hcells w h hw hh⟩⟩

/-- C15 at a concrete input: a 3×2 grid of 0/1 values. -/
theorem C15_simStep_synchronous_witness :
    0 < 3 ∧ 0 < 2 ∧ HasDims [[(1 : Int), 1, 0], [0, 1, 0]] 3 2 ∧
    (∀ row ∈ [[(1 : Int), 1, 0], [0, 1, 0]], ∀ v ∈ row, v = 0 ∨ v = 1) ∧
    ∃ newMap, simStep [[(1 : Int), 1, 0], [0, 1, 0]] 3 2 = some newMap ∧
      newMap.length = 2 ∧ (∀ row ∈ newMap, row.length = 3) ∧
      ∀ w h : Nat, w < 3 → h < 2 →
        countAliveNeighbours [[(1 : Int), 1, 0], [0, 1, 0]] w h =
          some (outsideCount 3 2 w h +
            onesInsideCount 3 2 [[(1 : Int), 1, 0], [0, 1, 0]] w h) ∧
        readCell newMap h w =
          some (if (valueAt [[(1 : Int), 1, 0], [0, 1, 0]] w h = 1 ∧
                    outsideCount 3 2 w h +
                      onesInsideCount 3 2 [[(1 : Int), 1, 0], [0, 1, 0]] w h ≥ 3) ∨
                  (valueAt [[(1 : Int), 1, 0], [0, 1, 0]] w h = 0 ∧
                    outsideCount 3 2 w h +
                      onesInsideCount 3 2 [[(1 : Int), 1, 0], [0, 1, 0]] w h > 4)
                then 1 else 0) :=
  ⟨by decide, by decide, by simp [HasDims], by decide,
    C15_simStep_synchronous 3 2 (by decide) (by decide) _ (by simp [HasDims]) (by decide)⟩

/-! ## The pass in place of `Cellular2d` -/

theorem readCell_neg_col {α : Type} (g : List (List α)) (r c : Int) (hc : c < 0) :
    readCell g r c = none := by
  unfold readCell
  cases readAt g r with
  | none => rfl
  | some row => simp [readAt, hc]

theorem readCell_neg_row {α : Type} (g : List (List α)) (r c : Int) (hr : r < 0) :
    readCell g r c = none := by
  simp [readCell, readAt, hr]

theorem aliveAt_congr {g g2 : List (List Bool)} {x y : Int}
    (h : readCell g2 y x = readCell g y x) : aliveAt g2 x y = aliveAt g x y := by
  unfold aliveAt
  rw [h]

theorem aliveAt_of_readCell {g : List (List Bool)} {x y : Int} {b : Bool}
    (h : readCell g y x = some b) : aliveAt g x y = b := by
  simp [aliveAt, h]

/-- An in-bounds integer position is a position with natural coordinates. -/
theorem inside_natCast {W H : Nat} {x y : Int} (hin : outside W H x y = false) :
    ∃ a b : Nat, x = (a : Int) ∧ y = (b : Int) ∧ a < W ∧ b < H := by
  rw [outside_eq_false_iff] at hin
  obtain ⟨a, rfl⟩ := Int.eq_ofNat_of_zero_le hin.1
  obtain ⟨b, rfl⟩ := Int.eq_ofNat_of_zero_le hin.2.1
  exact ⟨a, b, rfl, rfl, by exact_mod_cast hin.2.2.1, by exact_mod_cast hin.2.2.2⟩

theorem length_filter_inside_congr (W H : Nat) (L : List (Int × Int)) (a b : List (List Bool))
    (x y : Int)
    (h : ∀ d ∈ L, outside W H (x + d.1) (y + d.2) = false →
      aliveAt a (x + d.1) (y + d.2) = aliveAt b (x + d.1) (y + d.2)) :
    (L.filter (fun d =>
        !outside W H (x + d.1) (y + d.2) && aliveAt a (x + d.1) (y + d.2))).length =
    (L.filter (fun d =>
        !outside W H (x + d.1) (y + d.2) && aliveAt b (x + d.1) (y + d.2))).length := by
  congr 1
  apply List.filter_congr
  intro d hd
  cases hout : outside W H (x + d.1) (y + d.2)
  · simp [h d hd hout]
  · simp

theorem length_filter_four (p : Int × Int → Bool) (a b c d : Int × Int) :
    ([a, b, c, d].filter p).length = (p a).toNat + (p b).toNat + (p c).toNat + (p d).toNat := by
  simp only [← List.countP_eq_length_filter, List.countP_cons, List.countP_nil]
  cases p a <;> cases p b <;> cases p c <;> cases p d <;> rfl

/-- The count of in-bounds alive neighbours splits into the neighbours visited
before the cell and those visited after it. -/
theorem aliveInsideCount_split (W H : Nat) (g : List (List Bool)) (x y : Int) :
    aliveInsideCount W H g x y =
      (offsetsBefore.filter (fun d =>
        !outside W H (x + d.1) (y + d.2) && aliveAt g (x + d.1) (y + d.2))).length
      + (offsetsAfter.filter (fun d =>
        !outside W H (x + d.1) (y + d.2) && aliveAt g (x + d.1) (y + d.2))).length := by
  simp only [aliveInsideCount, offsetsBefore, offsetsAfter, length_filter_offsets8,
    length_filter_four]
  omega

namespace Cellular2d

/-- One cell of the pass: from the state on reaching `(j, h)` to the state on
reaching `(j + 1, h)`. -/
theorem smoothCell_inPlace {W H : Nat} {g m : List (List Bool)} {h j : Nat}
    (hinv : InPlaceInv W H g h j m) (hh : h < H) (hj : j < W) :
    ∃ m2, smoothCell h j m = some m2 ∧ InPlaceInv W H g h (j + 1) m2 := by
  obtain ⟨hm, hb, hc⟩ := hinv
  obtain ⟨m2, hrun, hm2, hcell, hrest⟩ := smoothCell_spec hm hh hj
  have hrestA : ∀ a b : Nat, (b ≠ h ∨ a ≠ j) → aliveAt m2 a b = aliveAt m a b :=
    fun a b hne => aliveAt_congr (hrest b a hne)
  refine ⟨m2, hrun, hm2, ?_, ?_⟩
  · intro y x hnv
    have hne : y ≠ h ∨ x ≠ j := by
      unfold visitedBefore at hnv
      omega
    rw [hrest y x hne]
    apply hb
    unfold visitedBefore at hnv ⊢
    omega
  · intro y x hy hx hv
    by_cases hcur : y = h ∧ x = j
    · obtain ⟨rfl, rfl⟩ := hcur
      rw [aliveAt_of_readCell hcell]
      have hself : aliveAt m x y = aliveAt g x y :=
        aliveAt_congr (hb y x (by unfold visitedBefore; omega))
      rw [hself]
      congr 1
      unfold aliveNeighbours inPlaceNeighbours
      rw [aliveInsideCount_split, ← Nat.add_assoc]
      congr 1
      · congr 1
        apply length_filter_inside_congr
        intro d hd hout
        obtain ⟨a, b, ha, hb2, -, -⟩ := inside_natCast hout
        rw [ha, hb2]
        symm
        apply hrestA
        simp only [offsetsBefore, List.mem_cons, List.mem_singleton, List.not_mem_nil,
          or_false] at hd
        rcases hd with rfl | rfl | rfl | rfl <;> simp only at ha hb2 <;> omega
      · apply length_filter_inside_congr
        intro d hd hout
        obtain ⟨a, b, ha, hb2, -, -⟩ := inside_natCast hout
        rw [ha, hb2]
        apply aliveAt_congr
        apply hb
        unfold visitedBefore
        simp only [offsetsAfter, List.mem_cons, List.mem_singleton, List.not_mem_nil,
          or_false] at hd
        rcases hd with rfl | rfl | rfl | rfl <;> simp only at ha hb2 <;> omega
    · have hne : y ≠ h ∨ x ≠ j := by omega
      have hv0 : visitedBefore h j y x := by
        unfold visitedBefore at hv ⊢
        omega
      rw [hrestA x y hne, hc y x hy hx hv0]
      congr 1
      unfold inPlaceNeighbours
      congr 2
      apply length_filter_inside_congr
      intro d hd hout
      obtain ⟨a, b, ha, hb2, -, -⟩ := inside_natCast hout
      rw [ha, hb2]
      symm
      apply hrestA
      unfold visitedBefore at hv0
      simp only [offsetsBefore, List.mem_cons, List.mem_singleton, List.not_mem_nil,
        or_false] at hd
      rcases hd with rfl | rfl | rfl | rfl <;> simp only at ha hb2 <;> omega

/-- One row of the pass: from the state on reaching row `h` to the state on
reaching row `h + 1`. -/
theorem smoothRow_inPlace {W H : Nat} {g m : List (List Bool)} {h : Nat}
    (hinv : InPlaceInv W H g h 0 m) (hh : h < H) :
    ∃ m2, forUpTo (smoothCell h) W m = some m2 ∧ InPlaceInv W H g (h + 1) 0 m2 := by
  obtain ⟨m2, hrun, hm2, hb, hc⟩ := forUpTo_invariant (fun j t => InPlaceInv W H g h j t)
    (smoothCell h) W m hinv (fun j hj t ht => smoothCell_inPlace ht hh hj)
  refine ⟨m2, hrun, hm2, ?_, ?_⟩
  · intro y x hnv
    apply hb
    unfold visitedBefore at hnv ⊢
    omega
  · intro y x hy hx hv
    apply hc y x hy hx
    unfold visitedBefore at hv ⊢
    omega

/-- The pass `Smooth` in place: it returns, keeps the dimensions, and every
cell is the rule applied to its value before the pass and to the neighbour
count that takes the neighbours already visited from the result. -/
theorem Smooth_inPlace {W H : Nat} {g : List (List Bool)} (hg : HasDims g W H) :
    ∃ g2, Smooth g = some g2 ∧ HasDims g2 W H ∧
      ∀ x y : Nat, x < W → y < H →
        aliveAt g2 x y = rule (aliveAt g x y) (inPlaceNeighbours W H g g2 x y) := by
  have hstart : InPlaceInv W H g 0 0 g :=
    ⟨hg, fun _ _ _ => rfl, fun y x _ _ hv => by unfold visitedBefore at hv; omega⟩
  obtain ⟨g2, hrun, hg2, -, hc⟩ := forUpTo_invariant (fun h t => InPlaceInv W H g h 0 t)
    (fun h m => (readAt m 0).bind (fun row0 => forUpTo (smoothCell h) row0.length m))
    H g hstart
    (by
      intro h hh t ht
      obtain ⟨row0, h0, hlen⟩ := readAt_zero_of_hasDims ht.1 (Nat.lt_of_le_of_lt (Nat.zero_le _) hh)
      simp only [h0, Option.some_bind, hlen]
      exact smoothRow_inPlace ht hh)
  refine ⟨g2, ?_, hg2, fun x y hx hy => hc y x hy hx (Or.inl hy)⟩
  unfold Smooth
  rw [hg.1]
  exact hrun

theorem rule_of_five_le (a : Bool) (n : Nat) (hn : 5 ≤ n) : rule a n = true := by
  cases a
  · simp [rule]; omega
  · simp [rule]; omega

theorem rule_alive_of_three_le (n : Nat) (hn : 3 ≤ n) : rule true n = true := by
  simp [rule]; omega

end Cellular2d

theorem outsideCount_le_inPlaceNeighbours (W H : Nat) (g g2 : List (List Bool)) (x y : Int) :
    outsideCount W H x y ≤ inPlaceNeighbours W H g g2 x y := by
  unfold inPlaceNeighbours
  omega

theorem outside_toNat_of (W H : Nat) (x y : Int)
    (h : x < 0 ∨ y < 0 ∨ (W : Int) ≤ x ∨ (H : Int) ≤ y) : (outside W H x y).toNat = 1 := by
  simp [outside, h]

/-- A cell of the first or last column, or of the first or last row, has at
least 3 neighbour positions out of bounds. -/
theorem three_le_outsideCount_border (W H x y : Nat)
    (hb : x = 0 ∨ x + 1 = W ∨ y = 0 ∨ y + 1 = H) : 3 ≤ outsideCount W H x y := by
  simp only [outsideCount, length_filter_offsets8]
  rcases hb with h | h | h | h
  · have h1 := outside_toNat_of W H ((x : Int) + -1) ((y : Int) + -1) (by omega)
    have h2 := outside_toNat_of W H ((x : Int) + -1) ((y : Int) + 0) (by omega)
    have h3 := outside_toNat_of W H ((x : Int) + -1) ((y : Int) + 1) (by omega)
    omega
  · have h1 := outside_toNat_of W H ((x : Int) + 1) ((y : Int) + -1) (by omega)
    have h2 := outside_toNat_of W H ((x : Int) + 1) ((y : Int) + 0) (by omega)
    have h3 := outside_toNat_of W H ((x : Int) + 1) ((y : Int) + 1) (by omega)
    omega
  · have h1 := outside_toNat_of W H ((x : Int) + -1) ((y : Int) + -1) (by omega)
    have h2 := outside_toNat_of W H ((x : Int) + 0) ((y : Int) + -1) (by omega)
    have h3 := outside_toNat_of W H ((x : Int) + 1) ((y : Int) + -1) (by omega)
    omega
  · have h1 := outside_toNat_of W H ((x : Int) + -1) ((y : Int) + 1) (by omega)
    have h2 := outside_toNat_of W H ((x : Int) + 0) ((y : Int) + 1) (by omega)
    have h3 := outside_toNat_of W H ((x : Int) + 1) ((y : Int) + 1) (by omega)
    omega

/-- A corner cell has at least 5 neighbour positions out of bounds. -/
theorem five_le_outsideCount_corner (W H x y : Nat)
    (hx : x = 0 ∨ x + 1 = W) (hy : y = 0 ∨ y + 1 = H) : 5 ≤ outsideCount W H x y := by
  simp only [outsideCount, length_filter_offsets8]
  rcases hx with h | h <;> rcases hy with k | k
  · have h1 := outside_toNat_of W H ((x : Int) + -1) ((y : Int) + -1) (by omega)
    have h2 := outside_toNat_of W H ((x : Int) + -1) ((y : Int) + 0) (by omega)
    have h3 := outside_toNat_of W H ((x : Int) + -1) ((y : Int) + 1) (by omega)
    have h4 := outside_toNat_of W H ((x : Int) + 0) ((y : Int) + -1) (by omega)
    have h5 := outside_toNat_of W H ((x : Int) + 1) ((y : Int) + -1) (by omega)
    omega
  · have h1 := outside_toNat_of W H ((x : Int) + -1) ((y : Int) + -1) (by omega)
    have h2 := outside_toNat_of W H ((x : Int) + -1) ((y : Int) + 0) (by omega)
    have h3 := outside_toNat_of W H ((x : Int) + -1) ((y : Int) + 1) (by omega)
    have h4 := outside_toNat_of W H ((x : Int) + 0) ((y : Int) + 1) (by omega)
    have h5 := outside_toNat_of W H ((x : Int) + 1) ((y : Int) + 1) (by omega)
    omega
  · have h1 := outside_toNat_of W H ((x : Int) + 1) ((y : Int) + -1) (by omega)
    have h2 := outside_toNat_of W H ((x : Int) + 1) ((y : Int) + 0) (by omega)
    have h3 := outside_toNat_of W H ((x : Int) + 1) ((y : Int) + 1) (by omega)
    have h4 := outside_toNat_of W H ((x : Int) + 0) ((y : Int) + -1) (by omega)
    have h5 := outside_toNat_of W H ((x : Int) + -1) ((y : Int) + -1) (by omega)
    omega
  · have h1 := outside_toNat_of W H ((x : Int) + 1) ((y : Int) + -1) (by omega)
    have h2 := outside_toNat_of W H ((x : Int) + 1) ((y : Int) + 0) (by omega)
    have h3 := outside_toNat_of W H ((x : Int) + 1) ((y : Int) + 1) (by omega)
    have h4 := outside_toNat_of W H ((x : Int) + 0) ((y : Int) + 1) (by omega)
    have h5 := outside_toNat_of W H ((x : Int) + -1) ((y : Int) + 1) (by omega)
    omega

/-- After one `Smooth` pass every corner cell is alive. -/
theorem Cellular2d.Smooth_corners {W H : Nat} {g : List (List Bool)} (hg : HasDims g W H) :
    ∃ g2, Cellular2d.Smooth g = some g2 ∧ HasDims g2 W H ∧
      ∀ x y : Nat, x < W → y < H → (x = 0 ∨ x + 1 = W) → (y = 0 ∨ y + 1 = H) →
        aliveAt g2 x y = true := by
  obtain ⟨g2, hrun, hg2, hcells⟩ := Cellular2d.Smooth_inPlace hg
  refine ⟨g2, hrun, hg2, fun x y hx hy hcx hcy => ?_⟩
  rw [hcells x y hx hy]
  exact Cellular2d.rule_of_five_le _ _
    (Nat.le_trans (five_le_outsideCount_corner W H x y hcx hcy)
      (outsideCount_le_inPlaceNeighbours W H g g2 x y))

/-- C16: `Cellular2d::Smooth` updates in place in row-major order.  On a grid
`g` of `H > 0` rows of `W > 0` columns the pass returns a grid `g2`, and the
value of every cell `(x, y)` of `g2` is `rule(g[y][x], n)`, where `n` counts
the positions out of bounds as alive, the in-bounds neighbours `(x-1,y-1)`,
`(x,y-1)`, `(x+1,y-1)`, `(x-1,y)` by their values in `g2` and the in-bounds
neighbours `(x+1,y)`, `(x-1,y+1)`, `(x,y+1)`, `(x+1,y+1)` by their values in
`g`. -/
theorem C16_Smooth_in_place_row_major (W H : Nat) (_hW : 0 < W) (_hH : 0 < H)
    (g : List (List Bool)) (hg : HasDims g W H) :
    ∃ g2, Cellular2d.Smooth g = some g2 ∧
      ∀ x y : Nat, x < W → y < H →
        aliveAt g2 x y =
          rule (aliveAt g x y)
            (outsideCount W H x y
              + ([((-1 : Int), (-1 : Int)), (0, -1), (1, -1), (-1, 0)].filter (fun d =>
                  !outside W H (x + d.1) (y + d.2) && aliveAt g2 (x + d.1) (y + d.2))).length
              + ([((1 : Int), (0 : Int)), (-1, 1), (0, 1), (1, 1)].filter (fun d =>
                  !outside W H (x + d.1) (y + d.2) && aliveAt g (x + d.1) (y + d.2))).length) := by
  obtain ⟨g2, hrun, -, hcells⟩ := Cellular2d.Smooth_inPlace hg
  exact ⟨g2, hrun, hcells⟩

/-- C16 at a concrete input: the all-dead grid of 2 rows of 3 columns. -/
theorem C16_Smooth_in_place_row_major_witness :
    0 < 3 ∧ 0 < 2 ∧ HasDims (deadGrid 3 2) 3 2 ∧
    ∃ g2, Cellular2d.Smooth (deadGrid 3 2) = some g2 ∧
      ∀ x y : Nat, x < 3 → y < 2 →
        aliveAt g2 x y =
          rule (aliveAt (deadGrid 3 2) x y)
            (outsideCount 3 2 x y
              + ([((-1 : Int), (-1 : Int)), (0, -1), (1, -1), (-1, 0)].filter (fun d =>
                  !outside 3 2 (x + d.1) (y + d.2) && aliveAt g2 (x + d.1) (y + d.2))).length
              + ([((1 : Int), (0 : Int)), (-1, 1), (0, 1), (1, 1)].filter (fun d =>
                  !outside 3 2 (x + d.1) (y + d.2) &&
                    aliveAt (deadGrid 3 2) (x + d.1) (y + d.2))).length) :=
  ⟨by decide, by decide, by simp [HasDims, deadGrid],
    C16_Smooth_in_place_row_major 3 2 (by decide) (by decide) (deadGrid 3 2)
      (by simp [HasDims, deadGrid])⟩

/-- C17: for `W >= 1`, `H >= 1` and every state of the random generator, the
constructor `Cellular2d(W, H)` returns a map whose four corner cells `(0,0)`,
`(W-1,0)`, `(0,H-1)`, `(W-1,H-1)` are alive: each corner has at least 5
neighbour positions out of bounds, and a `Smooth` pass on any grid of these
dimensions leaves each corner alive. -/
theorem C17_corners_alive (W H : Nat) (hW : 1 ≤ W) (hH : 1 ≤ H) (rs : RandState) :
    (∃ c rs2, Cellular2d.construct W H rs = some (c, rs2) ∧
      aliveAt (Cellular2d.GetMap c) (0 : Nat) (0 : Nat) = true ∧
      aliveAt (Cellular2d.GetMap c) (W - 1 : Nat) (0 : Nat) = true ∧
      aliveAt (Cellular2d.GetMap c) (0 : Nat) (H - 1 : Nat) = true ∧
      aliveAt (Cellular2d.GetMap c) (W - 1 : Nat) (H - 1 : Nat) = true) ∧
    (5 ≤ outsideCount W H (0 : Nat) (0 : Nat) ∧ 5 ≤ outsideCount W H (W - 1 : Nat) (0 : Nat) ∧
      5 ≤ outsideCount W H (0 : Nat) (H - 1 : Nat) ∧
      5 ≤ outsideCount W H (W - 1 : Nat) (H - 1 : Nat)) ∧
    (∀ g : List (List Bool), HasDims g W H →
      ∃ g2, Cellular2d.Smooth g = some g2 ∧
        aliveAt g2 (0 : Nat) (0 : Nat) = true ∧ aliveAt g2 (W - 1 : Nat) (0 : Nat) = true ∧
        aliveAt g2 (0 : Nat) (H - 1 : Nat) = true ∧
        aliveAt g2 (W - 1 : Nat) (H - 1 : Nat) = true) := by
  have hw1 : W - 1 < W := by omega
  have hh1 : H - 1 < H := by omega
  have hw2 : W - 1 = 0 ∨ W - 1 + 1 = W := Or.inr (by omega)
  have hh2 : H - 1 = 0 ∨ H - 1 + 1 = H := Or.inr (by omega)
  have hpass : ∀ g : List (List Bool), HasDims g W H →
      ∃ g2, Cellular2d.Smooth g = some g2 ∧
        aliveAt g2 (0 : Nat) (0 : Nat) = true ∧ aliveAt g2 (W - 1 : Nat) (0 : Nat) = true ∧
        aliveAt g2 (0 : Nat) (H - 1 : Nat) = true ∧
        aliveAt g2 (W - 1 : Nat) (H - 1 : Nat) = true := by
    intro g hg
    obtain ⟨g2, hrun, -, hc⟩ := Cellular2d.Smooth_corners hg
    exact ⟨g2, hrun, hc 0 0 hW hH (Or.inl rfl) (Or.inl rfl),
      hc (W - 1) 0 hw1 hH hw2 (Or.inl rfl), hc 0 (H - 1) hW hh1 (Or.inl rfl) hh2,
      hc (W - 1) (H - 1) hw1 hh1 hw2 hh2⟩
  refine ⟨?_, ⟨five_le_outsideCount_corner W H 0 0 (Or.inl rfl) (Or.inl rfl),
    five_le_outsideCount_corner W H (W - 1) 0 hw2 (Or.inl rfl),
    five_le_outsideCount_corner W H 0 (H - 1) (Or.inl rfl) hh2,
    five_le_outsideCount_corner W H (W - 1) (H - 1) hw2 hh2⟩, hpass⟩
  obtain ⟨g0, hgen, hg0, -⟩ := Cellular2d.Generate_spec
    { map := List.replicate H (List.replicate W false), width := W, height := H }
    (Cellular2d.hasDims_replicate W H false) rfl rfl rs
  obtain ⟨g4, hfour, hg4⟩ := forUpTo_preserves (fun m => HasDims m W H)
    (fun _ m => Cellular2d.Smooth m) 4 g0 hg0 (fun _ _ _ ht => Cellular2d.Smooth_hasDims ht)
  obtain ⟨g5, hlast, hcorners⟩ := hpass g4 hg4
  have hfive : forUpTo (fun _ m => Cellular2d.Smooth m) 5 g0 = some g5 := by
    show (forUpTo (fun _ m => Cellular2d.Smooth m) 4 g0).bind _ = some g5
    rw [hfour]
    exact hlast
  have hcon : Cellular2d.construct W H rs =
      some ({ map := g5, width := W, height := H },
        { stream := rs.stream, pos := rs.pos + H * W }) := by
    unfold Cellular2d.construct
    rw [hgen]
    simp only [Option.some_bind, hfive]
  exact ⟨_, _, hcon, hcorners⟩

/-- C17 at a concrete input: width 4, height 3. -/
theorem C17_corners_alive_witness :
    1 ≤ 4 ∧ 1 ≤ 3 ∧
    ((∃ c rs2, Cellular2d.construct 4 3 (constRand 99) = some (c, rs2) ∧
      aliveAt (Cellular2d.GetMap c) (0 : Nat) (0 : Nat) = true ∧
      aliveAt (Cellular2d.GetMap c) (4 - 1 : Nat) (0 : Nat) = true ∧
      aliveAt (Cellular2d.GetMap c) (0 : Nat) (3 - 1 : Nat) = true ∧
      aliveAt (Cellular2d.GetMap c) (4 - 1 : Nat) (3 - 1 : Nat) = true) ∧
    (5 ≤ outsideCount 4 3 (0 : Nat) (0 : Nat) ∧ 5 ≤ outsideCount 4 3 (4 - 1 : Nat) (0 : Nat) ∧
      5 ≤ outsideCount 4 3 (0 : Nat) (3 - 1 : Nat) ∧
      5 ≤ outsideCount 4 3 (4 - 1 : Nat) (3 - 1 : Nat)) ∧
    (∀ g : List (List Bool), HasDims g 4 3 →
      ∃ g2, Cellular2d.Smooth g = some g2 ∧
        aliveAt g2 (0 : Nat) (0 : Nat) = true ∧ aliveAt g2 (4 - 1 : Nat) (0 : Nat) = true ∧
        aliveAt g2 (0 : Nat) (3 - 1 : Nat) = true ∧
        aliveAt g2 (4 - 1 : Nat) (3 - 1 : Nat) = true)) :=
  ⟨by decide, by decide, C17_corners_alive 4 3 (by decide) (by decide) (constRand 99)⟩

/-- C18: border walls never erode in `Cellular2d`.  On a grid `g` of `H > 0`
rows of `W > 0` columns, a cell `(x, y)` of the first or last column or of the
first or last row that is alive in `g` is alive in the grid that one `Smooth`
pass returns. -/
theorem C18_border_walls_stay (W H : Nat) (_hW : 0 < W) (_hH : 0 < H)
    (g : List (List Bool)) (hg : HasDims g W H) (x y : Nat) (hx : x < W) (hy : y < H)
    (hborder : x = 0 ∨ x = W - 1 ∨ y = 0 ∨ y = H - 1) (halive : aliveAt g x y = true) :
    ∃ g2, Cellular2d.Smooth g = some g2 ∧ aliveAt g2 x y = true := by
  obtain ⟨g2, hrun, -, hcells⟩ := Cellular2d.Smooth_inPlace hg
  refine ⟨g2, hrun, ?_⟩
  rw [hcells x y hx hy, halive]
  apply Cellular2d.rule_alive_of_three_le
  have hb : x = 0 ∨ x + 1 = W ∨ y = 0 ∨ y + 1 = H := by omega
  exact Nat.le_trans (three_le_outsideCount_border W H x y hb)
    (outsideCount_le_inPlaceNeighbours W H g g2 x y)

/-- C18 at a concrete input: the alive cell `(1, 0)` of the first row of a 3×3
grid whose other cells are dead. -/
theorem C18_border_walls_stay_witness :
    0 < 3 ∧ 0 < 3 ∧
    HasDims [[false, true, false], [false, false, false], [false, false, false]] 3 3 ∧
    1 < 3 ∧ 0 < 3 ∧ ((1 : Nat) = 0 ∨ (1 : Nat) = 3 - 1 ∨ (0 : Nat) = 0 ∨ (0 : Nat) = 3 - 1) ∧
    aliveAt [[false, true, false], [false, false, false], [false, false, false]]
      (1 : Nat) (0 : Nat) = true ∧
    ∃ g2, Cellular2d.Smooth
        [[false, true, false], [false, false, false], [false, false, false]] = some g2 ∧
      aliveAt g2 (1 : Nat) (0 : Nat) = true :=
  ⟨by decide, by decide, by simp [HasDims], by decide, by decide, by decide, by decide,
    C18_border_walls_stay 3 3 (by decide) (by decide) _ (by simp [HasDims]) 1 0 (by decide)
      (by decide) (by decide) (by decide)⟩

/-! ## Monotonicity of `Cellular2d::Smooth` -/

/-- Two runs of one loop from related states stay related. -/
theorem forUpTo_related {σ : Type} (R : σ → σ → Prop) (body : Nat → σ → Option σ)
    (n : Nat) (s s2 : σ) (h0 : R s s2)
    (hstep : ∀ k, k < n → ∀ t t2, R t t2 →
      ∃ u u2, body k t = some u ∧ body k t2 = some u2 ∧ R u u2) :
    ∃ u u2, forUpTo body n s = some u ∧ forUpTo body n s2 = some u2 ∧ R u u2 := by
  induction n with
  | zero => exact ⟨s, s2, rfl, rfl, h0⟩
  | succ n ih =>
    obtain ⟨t, t2, ht, ht2, hR⟩ := ih (fun k hk => hstep k (Nat.lt_succ_of_lt hk))
    obtain ⟨u, u2, hu, hu2, hR2⟩ := hstep n (Nat.lt_succ_self n) t t2 hR
    exact ⟨u, u2, by simp [forUpTo, ht, hu], by simp [forUpTo, ht2, hu2], hR2⟩

theorem aliveAt_neg_false (g : List (List Bool)) (x y : Int) (h : x < 0 ∨ y < 0) :
    aliveAt g x y = false := by
  unfold aliveAt
  rcases h with h | h
  · rw [readCell_neg_col g y x h]; rfl
  · rw [readCell_neg_row g y x h]; rfl

theorem GridLe.at_int {g g2 : List (List Bool)} (hle : GridLe g g2) (x y : Int)
    (h : aliveAt g x y = true) : aliveAt g2 x y = true := by
  by_cases hneg : x < 0 ∨ y < 0
  · rw [aliveAt_neg_false g x y hneg] at h
    exact absurd h (by decide)
  · obtain ⟨a, rfl⟩ := Int.eq_ofNat_of_zero_le (by omega : 0 ≤ x)
    obtain ⟨b, rfl⟩ := Int.eq_ofNat_of_zero_le (by omega : 0 ≤ y)
    exact hle a b h

theorem aliveNeighbours_mono {g g2 : List (List Bool)} (hle : GridLe g g2) (W H : Nat)
    (x y : Int) : aliveNeighbours W H g x y ≤ aliveNeighbours W H g2 x y := by
  unfold aliveNeighbours aliveInsideCount
  apply Nat.add_le_add_left
  rw [← List.countP_eq_length_filter, ← List.countP_eq_length_filter]
  apply List.countP_mono_left
  intro d _ hd
  simp only [Bool.and_eq_true, Bool.not_eq_true'] at hd ⊢
  exact ⟨hd.1, hle.at_int _ _ hd.2⟩

theorem rule_mono {a b : Bool} {n k : Nat} (hab : a = true → b = true) (hnk : n ≤ k)
    (h : rule a n = true) : rule b k = true := by
  cases a <;> cases b <;> simp [rule] at h hab ⊢ <;> omega

namespace Cellular2d

theorem smoothCell_mono {W H : Nat} {m m2 : List (List Bool)} (hm : HasDims m W H)
    (hm2 : HasDims m2 W H) (hle : GridLe m m2) {h w : Nat} (hh : h < H) (hw : w < W) :
    ∃ u u2, smoothCell h w m = some u ∧ smoothCell h w m2 = some u2 ∧
      HasDims u W H ∧ HasDims u2 W H ∧ GridLe u u2 := by
  obtain ⟨u, hrun, hu, hcell, hrest⟩ := smoothCell_spec hm hh hw
  obtain ⟨u2, hrun2, hu2, hcell2, hrest2⟩ := smoothCell_spec hm2 hh hw
  refine ⟨u, u2, hrun, hrun2, hu, hu2, ?_⟩
  intro x y halive
  by_cases hcur : y = h ∧ x = w
  · obtain ⟨rfl, rfl⟩ := hcur
    rw [aliveAt_of_readCell hcell] at halive
    rw [aliveAt_of_readCell hcell2]
    exact rule_mono (hle x y) (aliveNeighbours_mono hle W H x y) halive
  · have hne : y ≠ h ∨ x ≠ w := by omega
    rw [aliveAt_congr (hrest y x hne)] at halive
    rw [aliveAt_congr (hrest2 y x hne)]
    exact hle x y halive

/-- `Smooth` on two grids of the same dimensions, the second having every
alive cell of the first: both passes return, and the result of the second has
every alive cell of the result of the first. -/
theorem Smooth_mono {W H : Nat} {g g2 : List (List Bool)} (hg : HasDims g W H)
    (hg2 : HasDims g2 W H) (hle : GridLe g g2) :
    ∃ u u2, Smooth g = some u ∧ Smooth g2 = some u2 ∧ GridLe u u2 := by
  obtain ⟨u, u2, hu, hu2, -, -, hR⟩ := forUpTo_related
    (fun t t2 => HasDims t W H ∧ HasDims t2 W H ∧ GridLe t t2)
    (fun h m => (readAt m 0).bind (fun row0 => forUpTo (smoothCell h) row0.length m))
    H g g2 ⟨hg, hg2, hle⟩
    (by
      rintro h hh t t2 ⟨ht, ht2, hR⟩
      have hH : 0 < H := Nat.lt_of_le_of_lt (Nat.zero_le _) hh
      obtain ⟨row0, h0, hlen⟩ := readAt_zero_of_hasDims ht hH
      obtain ⟨row02, h02, hlen2⟩ := readAt_zero_of_hasDims ht2 hH
      simp only [h0, h02, Option.some_bind, hlen, hlen2]
      exact forUpTo_related (fun t t2 => HasDims t W H ∧ HasDims t2 W H ∧ GridLe t t2)
        (smoothCell h) W t t2 ⟨ht, ht2, hR⟩
        (by
          rintro w hw s s2 ⟨hs, hs2, hS⟩
          obtain ⟨v, v2, hv, hv2, hd, hd2, hV⟩ := smoothCell_mono hs hs2 hS hh hw
          exact ⟨v, v2, hv, hv2, hd, hd2, hV⟩))
  refine ⟨u, u2, ?_, ?_, hR⟩
  · unfold Smooth; rw [hg.1]; exact hu
  · unfold Smooth; rw [hg2.1]; exact hu2

end Cellular2d

/-- C19: `Cellular2d::Smooth` is monotone.  For grids `g`, `g2` of `H > 0` rows
of `W > 0` columns such that every cell alive in `g` is alive in `g2`, both
passes return, and every cell alive in `Smooth(g)` is alive in `Smooth(g2)`. -/
theorem C19_Smooth_monotone (W H : Nat) (_hW : 0 < W) (_hH : 0 < H)
    (g g2 : List (List Bool)) (hg : HasDims g W H) (hg2 : HasDims g2 W H)
    (hle : ∀ x y : Nat, aliveAt g x y = true → aliveAt g2 x y = true) :
    ∃ u u2, Cellular2d.Smooth g = some u ∧ Cellular2d.Smooth g2 = some u2 ∧
      ∀ x y : Nat, aliveAt u x y = true → aliveAt u2 x y = true :=
  Cellular2d.Smooth_mono hg hg2 hle

theorem aliveAt_eq_false_of_outside {g : List (List Bool)} {W H : Nat} (hg : HasDims g W H)
    {x y : Int} (hout : outside W H x y = true) : aliveAt g x y = false := by
  simp only [outside, decide_eq_true_eq] at hout
  by_cases hneg : x < 0 ∨ y < 0
  · exact aliveAt_neg_false g x y hneg
  · obtain ⟨a, rfl⟩ := Int.eq_ofNat_of_zero_le (by omega : 0 ≤ x)
    obtain ⟨b, rfl⟩ := Int.eq_ofNat_of_zero_le (by omega : 0 ≤ y)
    unfold aliveAt readCell
    rw [readAt_natCast]
    cases hrow : g[b]? with
    | none => rfl
    | some row =>
      have hmem : row ∈ g := List.getElem?_mem hrow
      have hb : b < g.length := by
        by_contra hcon
        rw [List.getElem?_eq_none (not_lt.mp hcon)] at hrow
        exact Option.noConfusion hrow
      have hW : W ≤ a := by
        rw [hg.1] at hb
        omega
      simp only [Option.some_bind, readAt_natCast]
      rw [List.getElem?_eq_none (by rw [hg.2 row hmem]; exact hW)]
      rfl

/-- C19 at a concrete input: two 3×2 grids, the second with two more alive
cells than the first. -/
theorem C19_Smooth_monotone_witness :
    0 < 3 ∧ 0 < 2 ∧
    HasDims [[false, true, false], [false, false, false]] 3 2 ∧
    HasDims [[true, true, false], [false, false, true]] 3 2 ∧
    (∀ x y : Nat, aliveAt [[false, true, false], [false, false, false]] x y = true →
      aliveAt [[true, true, false], [false, false, true]] x y = true) ∧
    ∃ u u2, Cellular2d.Smooth [[false, true, false], [false, false, false]] = some u ∧
      Cellular2d.Smooth [[true, true, false], [false, false, true]] = some u2 ∧
      ∀ x y : Nat, aliveAt u x y = true → aliveAt u2 x y = true :=
  have hle : ∀ x y : Nat, aliveAt [[false, true, false], [false, false, false]] x y = true →
      aliveAt [[true, true, false], [false, false, true]] x y = true := by
    intro x y h
    by_cases hin : x < 3 ∧ y < 2
    · obtain ⟨hx, hy⟩ := hin
      interval_cases x <;> interval_cases y <;>
        first
        | exact absurd h (by decide)
        | decide
    · have hout : outside 3 2 (x : Int) (y : Int) = true := by
        simp only [outside, decide_eq_true_eq]
        omega
      rw [aliveAt_eq_false_of_outside (by simp [HasDims]) hout] at h
      exact absurd h (by decide)
  ⟨by decide, by decide, by simp [HasDims], by simp [HasDims], hle,
    C19_Smooth_monotone 3 2 (by decide) (by decide) _ _ (by simp [HasDims])
      (by simp [HasDims]) hle⟩

/-! ## The flat index arithmetic away from the border columns -/

theorem hasDims_cons {α : Type} {row : List α} {rest : List (List α)} {W H : Nat}
    (h : HasDims (row :: rest) W H) : row.length = W ∧ HasDims rest W (H - 1) := by
  refine ⟨h.2 row (List.mem_cons_self _ _), ?_, fun r hr => h.2 r (List.mem_cons_of_mem _ hr)⟩
  have := h.1
  simp only [List.length_cons] at this
  omega

theorem flatten_length {g : List (List Bool)} {W H : Nat} (hg : HasDims g W H) :
    (flatten g).length = H * W := by
  induction g generalizing H with
  | nil =>
    have : H = 0 := hg.1.symm
    subst this
    simp [flatten]
  | cons row rest ih =>
    obtain ⟨hrow, hrest⟩ := hasDims_cons hg
    have hH : H = (H - 1) + 1 := by
      have := hg.1
      simp only [List.length_cons] at this
      omega
    rw [flatten, List.length_append, ih hrest, hrow, hH, Nat.succ_mul]
    simp only [Nat.add_sub_cancel]
    omega

/-- The cell `(x, y)` of a grid is the cell `y * W + x` of its flattening. -/
theorem readAt_flatten {g : List (List Bool)} {W H : Nat} (hg : HasDims g W H)
    (x y : Nat) (hx : x < W) (hy : y < H) :
    readAt (flatten g) ((y * W + x : Nat) : Int) = readCell g y x := by
  induction g generalizing H y with
  | nil =>
    have : H = 0 := hg.1.symm
    omega
  | cons row rest ih =>
    obtain ⟨hrow, hrest⟩ := hasDims_cons hg
    cases y with
    | zero =>
      simp only [readCell, readAt_natCast, flatten, Nat.zero_mul, Nat.zero_add,
        List.getElem?_cons_zero, Option.some_bind]
      rw [List.getElem?_append_left (by rw [hrow]; exact hx)]
    | succ k =>
      have hk : k < H - 1 := by omega
      have := ih hrest k hk
      simp only [readCell, readAt_natCast, flatten, List.getElem?_cons_succ] at this ⊢
      rw [← this]
      have hidx : (k + 1) * W + x = row.length + (k * W + x) := by
        rw [hrow, Nat.succ_mul]; omega
      rw [hidx, List.getElem?_append_right (Nat.le_add_right _ _)]
      simp

/-- With the column in range, the flat variants and `Cellular2d` count the
same neighbour positions as alive. -/
theorem flatCounts_flatten {g : List (List Bool)} {W H : Nat} (hg : HasDims g W H)
    (nx ny : Int) (h0 : 0 ≤ nx) (h1 : nx < W) :
    flatCounts (H * W) (flatten g) (ny * (W : Int) + nx) =
      (outside W H nx ny || aliveAt g nx ny) := by
  by_cases hneg : ny < 0
  · have hle : ny * (W : Int) ≤ -1 * (W : Int) :=
      Int.mul_le_mul_of_nonneg_right (by omega) (Int.natCast_nonneg W)
    have hn : ny * (W : Int) + nx < 0 := by omega
    simp [flatCounts, outside, hn, hneg]
  · by_cases hbig : (H : Int) ≤ ny
    · have hle : (H : Int) * (W : Int) ≤ ny * (W : Int) :=
        Int.mul_le_mul_of_nonneg_right hbig (Int.natCast_nonneg W)
      have hn : (H : Int) * (W : Int) ≤ ny * (W : Int) + nx := by omega
      simp [flatCounts, outside, hn, hbig]
    · obtain ⟨b, rfl⟩ := Int.eq_ofNat_of_zero_le (by omega : 0 ≤ ny)
      obtain ⟨a, rfl⟩ := Int.eq_ofNat_of_zero_le h0
      have ha : a < W := by exact_mod_cast h1
      have hb : b < H := by
        have : (b : Int) < H := by omega
        exact_mod_cast this
      have hout : outside W H (a : Int) (b : Int) = false := by
        rw [outside_eq_false_iff]; omega
      have hidx : (b : Int) * (W : Int) + (a : Int) = ((b * W + a : Nat) : Int) := by
        push_cast; rfl
      have hlt : b * W + a < H * W := by
        calc b * W + a < b * W + W := Nat.add_lt_add_left ha _
          _ = (b + 1) * W := (Nat.succ_mul b W).symm
          _ ≤ H * W := Nat.mul_le_mul_right W hb
      have hdec : ¬ (((b * W + a : Nat) : Int) < 0 ∨ ((H * W : Nat) : Int) ≤ ((b * W + a : Nat) : Int)) := by
        omega
      rw [hidx]
      unfold flatCounts
      rw [readAt_flatten hg a b ha hb, readCell_of_inside hg hout, hout, decide_eq_false hdec]
      rfl

/-- Away from the first and last columns the flat neighbour count on the
flattening is the neighbour count of `Cellular2d`. -/
theorem flatAliveNeighbours_flatten {g : List (List Bool)} {W H : Nat} (hg : HasDims g W H)
    (r c : Nat) (hc1 : 1 ≤ c) (hc2 : c + 2 ≤ W) :
    flatAliveNeighbours W (H * W) (flatten g) (r * W + c) = aliveNeighbours W H g c r := by
  have hW : 0 < W := by omega
  have hdiv : (r * W + c) / W = r := by
    rw [Nat.add_comm, Nat.add_mul_div_right _ _ hW, Nat.div_eq_of_lt (by omega), Nat.zero_add]
  have hmod : (r * W + c) % W = c := by
    rw [Nat.add_comm, Nat.add_mul_mod_self_right, Nat.mod_eq_of_lt (by omega)]
  have hpt : ∀ i j : Int, -1 ≤ j → j ≤ 1 →
      flatCounts (H * W) (flatten g) (((r : Int) + i) * (W : Int) + ((c : Int) + j)) =
        (outside W H ((c : Int) + j) ((r : Int) + i) || aliveAt g ((c : Int) + j) ((r : Int) + i)) :=
    fun i j hj1 hj2 => flatCounts_flatten hg _ _ (by omega) (by omega)
  simp only [flatAliveNeighbours, aliveNeighbours, outsideCount, aliveInsideCount,
    length_filter_offsets8, hdiv, hmod]
  rw [hpt (-1) (-1) (by decide) (by decide), hpt (-1) 0 (by decide) (by decide),
    hpt (-1) 1 (by decide) (by decide), hpt 0 (-1) (by decide) (by decide),
    hpt 0 1 (by decide) (by decide), hpt 1 (-1) (by decide) (by decide),
    hpt 1 0 (by decide) (by decide), hpt 1 1 (by decide) (by decide)]
  simp only [toNat_or_split]
  omega

/-- C20: away from the first and last columns the flat index arithmetic agrees
with the 2D neighbourhood.  For `W >= 3`, `H >= 1`, a grid `g` of `H` rows of
`W` columns, a row `r < H` and a column `c` with `1 <= c <= W-2`,
`Cellular::countAliveNeighbours(r*W + c)` on the flattening of `g` (with
`size = H*W`) returns the count that `Cellular2d::countAliveNeighbours(c, r)`
returns on `g`. -/
theorem C20_flat_count_agrees_inside_columns (W H : Nat) (hW : 3 ≤ W) (hH : 1 ≤ H)
    (g : List (List Bool)) (hg : HasDims g W H) (r c : Nat) (_hr : r < H)
    (hc1 : 1 ≤ c) (hc2 : c ≤ W - 2) :
    ∃ n, Cellular.countAliveNeighbours W (H * W) (flatten g) (r * W + c) = some n ∧
      Cellular2d.countAliveNeighbours g c r = some n ∧
      Cellular.countAliveNeighbours W (H * W) (flatten g) (r * W + c) =
        Cellular2d.countAliveNeighbours g c r := by
  have hflat := Cellular.flat_countAliveNeighbours_eq W (H * W) (flatten g) (by omega)
    (by rw [flatten_length hg]) (r * W + c)
  have h2d := Cellular2d.countAliveNeighbours_eq hg hH (c : Int) (r : Int)
  rw [flatAliveNeighbours_flatten hg r c hc1 (by omega)] at hflat
  exact ⟨_, hflat, h2d, by rw [hflat, h2d]⟩

/-- C20 at a concrete input: the cell of row 1 and column 1 of a 3×2 grid. -/
theorem C20_flat_count_agrees_inside_columns_witness :
    3 ≤ 3 ∧ 1 ≤ 2 ∧ HasDims [[true, false, true], [false, false, true]] 3 2 ∧
    1 < 2 ∧ 1 ≤ 1 ∧ 1 ≤ 3 - 2 ∧
    ∃ n, Cellular.countAliveNeighbours 3 (2 * 3)
          (flatten [[true, false, true], [false, false, true]]) (1 * 3 + 1) = some n ∧
      Cellular2d.countAliveNeighbours [[true, false, true], [false, false, true]]
          (1 : Nat) (1 : Nat) = some n ∧
      Cellular.countAliveNeighbours 3 (2 * 3)
          (flatten [[true, false, true], [false, false, true]]) (1 * 3 + 1) =
        Cellular2d.countAliveNeighbours [[true, false, true], [false, false, true]]
          (1 : Nat) (1 : Nat) :=
  ⟨by decide, by decide, by simp [HasDims], by decide, by decide, by decide,
    C20_flat_count_agrees_inside_columns 3 2 (by decide) (by decide) _ (by simp [HasDims]) 1 1
      (by decide) (by decide) (by decide)⟩

end CaveGen
